import Mathlib

/-
Verification development for the two-stage warehouse pipeline
(`script/desnormalizar.py`, `script/tablas.py`).

Tables are modelled as a column-name list plus rows of (name, value) cells.
Numeric cells are modelled as integers, timestamps as (year, month, day,
fraction-of-day) tuples; `pd.to_datetime(..., errors='coerce')` is modelled
as the map that keeps already-parsed timestamps and coerces every other
value to null (staging tables store parsed datetime columns; string-to-date
parsing is outside the model's scope).  Fallible pandas operations (column
selection `df[[...]]`, merges with a missing key column, DataFrame
truthiness) return `Except PyErr`.
-/

set_option autoImplicit false

namespace Warehouse

/-- A cell value: null (NaN/None/NaT), an integer, a string, or a timestamp
with year/month/day and an intra-day fraction. -/
inductive Val where
  | null : Val
  | int : Int → Val
  | str : String → Val
  | ts : Nat → Nat → Nat → Nat → Val
deriving DecidableEq, Repr

/-- A row is an association list from column names to values. -/
abbrev Row := List (String × Val)

/-- A table: column names plus rows. -/
structure Table where
  cols : List String
  rows : List Row
deriving DecidableEq, Repr

/-- Exceptions raised by the modelled pandas operations. -/
inductive PyErr where
  | valueError : String → PyErr
  | keyError : String → PyErr
  | writeFailed : String → PyErr
deriving DecidableEq, Repr

/-- Read the cell for column `c` (null when the column is absent). -/
def getCellR : Row → String → Val
  | [], _ => Val.null
  | p :: ps, c => if p.1 == c then p.2 else getCellR ps c

/-- Set (or append) the cell for column `c`. -/
def setCellR : Row → String → Val → Row
  | [], c, v => [(c, v)]
  | p :: ps, c, v => if p.1 == c then (c, v) :: ps else p :: setCellR ps c v

/-- Rename the cells of a row by a column-name map. -/
def renameRowF (f : String → String) (r : Row) : Row :=
  r.map (fun p => (f p.1, p.2))

/-- Extract a column of a table as the list of its cell values. -/
def getColumnT (t : Table) (c : String) : List Val :=
  t.rows.map (fun r => getCellR r c)

/-- Column assignment `df[c] = v` with a constant value. -/
def setColConst (t : Table) (c : String) (v : Val) : Table :=
  { cols := if t.cols.contains c then t.cols else t.cols ++ [c],
    rows := t.rows.map (fun r => setCellR r c v) }

/-- Column assignment `df[dst] = df[src]`. -/
def setColFromCol (t : Table) (dst src : String) : Table :=
  { cols := if t.cols.contains dst then t.cols else t.cols ++ [dst],
    rows := t.rows.map (fun r => setCellR r dst (getCellR r src)) }

/-- Cell-wise transformation of one column, `df[c] = f(df[c])`. -/
def mapColVals (t : Table) (c : String) (f : Val → Val) : Table :=
  { cols := t.cols,
    rows := t.rows.map (fun r => setCellR r c (f (getCellR r c))) }

/-- Column rename `df.rename(columns={old: new})`. -/
def renameColT (t : Table) (old new : String) : Table :=
  { cols := t.cols.map (fun c => if c == old then new else c),
    rows := t.rows.map (renameRowF (fun c => if c == old then new else c)) }

/-- Drop the given columns (tolerating absent ones), as in
`df.drop(columns=[c for c in cs if c in df.columns])`. -/
def dropColsT (t : Table) (cs : List String) : Table :=
  { cols := t.cols.filter (fun c => !(cs.contains c)),
    rows := t.rows.map (fun r => r.filter (fun p => !(cs.contains p.1))) }

/-- Project a row to the given columns, in their order. -/
def projRow (cs : List String) (r : Row) : Row :=
  cs.map (fun c => (c, getCellR r c))

/-- Total column projection, used where the source pre-filters the column
list down to the columns actually present. -/
def projectCols (t : Table) (cs : List String) : Table :=
  { cols := cs, rows := t.rows.map (projRow cs) }

/-- Column selection `df[[...]]`; raises `KeyError` when a column is absent. -/
def selectCols (t : Table) (cs : List String) : Except PyErr Table :=
  if cs.all (fun c => t.cols.contains c) then Except.ok (projectCols t cs)
  else Except.error (PyErr.keyError (String.intercalate ", " cs))

/-- Keep-first deduplication by a key function, with an accumulator of seen
keys; this is the semantics of `drop_duplicates` (`keep='first'`). -/
def dedupByAux {α κ : Type} [DecidableEq κ] (key : α → κ) (seen : List κ) : List α → List α
  | [] => []
  | x :: xs =>
      if key x ∈ seen then dedupByAux key seen xs
      else x :: dedupByAux key (key x :: seen) xs

/-- `df.drop_duplicates()` on full-row equality. -/
def dropDupFull (t : Table) : Table :=
  { cols := t.cols, rows := dedupByAux (fun r => r) [] t.rows }

/-- The key tuple of a row for a column subset. -/
def rowKey (ks : List String) (r : Row) : List Val :=
  ks.map (getCellR r)

/-- `df.drop_duplicates(subset=ks)`. -/
def dropDupSubset (t : Table) (ks : List String) : Table :=
  { cols := t.cols, rows := dedupByAux (rowKey ks) [] t.rows }

/-- The integer values `n, n+1, ..., n+len-1` as cells. -/
def skRange : Nat → Nat → List Val
  | _, 0 => []
  | n, len + 1 => Val.int (Int.ofNat n) :: skRange (n + 1) len

/-- Prepend a counter cell (starting at `n`) to every row. -/
def insertSkRows (name : String) : Nat → List Row → List Row
  | _, [] => []
  | n, r :: rs => ((name, Val.int (Int.ofNat n)) :: r) :: insertSkRows name (n + 1) rs

/-- `df.insert(0, name, range(1, len(df)+1))`: the surrogate-key column. -/
def insertSk (name : String) (t : Table) : Table :=
  { cols := name :: t.cols, rows := insertSkRows name 1 t.rows }

/-- The staging/raw environment: which tables exist under which name. -/
abbrev Env := List (String × Table)

/-- `read_staging` / `read_table`: `None` when the file is absent. -/
def readEnv (env : Env) (name : String) : Option Table :=
  match env.find? (fun p => p.1 == name) with
  | some p => some p.2
  | none => none

/-- Model of `pd.to_datetime(v, errors='coerce')` on a cell: already-parsed
timestamps pass through, everything else coerces to null. -/
def toDatetimeVal : Val → Val
  | Val.ts y m d f => Val.ts y m d f
  | _ => Val.null

/-- Model of `.dt.normalize()` on a cell: zero the intra-day fraction
(null stays null, as `NaT.normalize()` is `NaT`). -/
def normalizeVal : Val → Val
  | Val.ts y m d _ => Val.ts y m d 0
  | _ => Val.null

/-- Numeric year-month-day key of a timestamp (its `YYYYMMDD` encoding). -/
def ymdKey : Val → Nat
  | Val.ts y m d _ => y * 10000 + m * 100 + d
  | _ => 0

/-- Timestamp order used by `sort_values` and `min`/`max` on a datetime
column: by calendar day, then by intra-day fraction. -/
def tsLe (a b : Val) : Bool :=
  match a, b with
  | Val.ts y1 m1 d1 f1, Val.ts y2 m2 d2 f2 =>
      ymdKey (Val.ts y1 m1 d1 f1) < ymdKey (Val.ts y2 m2 d2 f2)
      || (ymdKey (Val.ts y1 m1 d1 f1) == ymdKey (Val.ts y2 m2 d2 f2) && f1 ≤ f2)
  | _, _ => false

/-- One step of a running minimum over an optional accumulator. -/
def minStep (acc : Option Val) (v : Val) : Option Val :=
  match acc with
  | none => some v
  | some m => some (if tsLe v m then v else m)

/-- One step of a running maximum over an optional accumulator. -/
def maxStep (acc : Option Val) (v : Val) : Option Val :=
  match acc with
  | none => some v
  | some m => some (if tsLe m v then v else m)

/-- `Series.min(skipna=True)` on a datetime column: `None` when no
non-null value exists. -/
def minDate (l : List Val) : Option Val :=
  (l.filter (fun v => decide (v ≠ Val.null))).foldl minStep none

/-- `Series.max(skipna=True)` on a datetime column. -/
def maxDate (l : List Val) : Option Val :=
  (l.filter (fun v => decide (v ≠ Val.null))).foldl maxStep none

/-- Gregorian leap-year test. -/
def isLeap (y : Nat) : Bool :=
  (y % 4 == 0 && y % 100 != 0) || y % 400 == 0

/-- Number of days in a Gregorian month. -/
def daysInMonth (y m : Nat) : Nat :=
  if m == 2 then (if isLeap y then 29 else 28)
  else if m == 4 || m == 6 || m == 9 || m == 11 then 30
  else 31

/-- The calendar day after `(y, m, d)`. -/
def nextDay (ymd : Nat × Nat × Nat) : Nat × Nat × Nat :=
  let y := ymd.1
  let m := ymd.2.1
  let d := ymd.2.2
  if d < daysInMonth y m then (y, m, d + 1)
  else if m < 12 then (y, m + 1, 1)
  else (y + 1, 1, 1)

/-- Fuelled daily range walk from a current day up to a stop key. -/
def dateRangeGo : Nat → Nat × Nat × Nat → Nat → List Val
  | 0, _, _ => []
  | fuel + 1, cur, stop =>
      if cur.1 * 10000 + cur.2.1 * 100 + cur.2.2 > stop then []
      else Val.ts cur.1 cur.2.1 cur.2.2 0 :: dateRangeGo fuel (nextDay cur) stop

/-- `pd.date_range(a, b, freq='D')` on normalized timestamps. -/
def dateRange (a b : Val) : List Val :=
  match a, b with
  | Val.ts y1 m1 d1 _, Val.ts y2 m2 d2 _ =>
      dateRangeGo (y2 * 10000 + m2 * 100 + d2 + 1 - (y1 * 10000 + m1 * 100 + d1))
        (y1, m1, d1) (y2 * 10000 + m2 * 100 + d2)
  | _, _ => []

/-- Count of days before month `m` in year `y`. -/
def daysBeforeMonth (y m : Nat) : Nat :=
  (List.range (m - 1)).foldl (fun acc k => acc + daysInMonth y (k + 1)) 0

/-- Proleptic Gregorian day number (rata die) of `(y, m, d)`. -/
def rataDie (y m d : Nat) : Nat :=
  365 * (y - 1) + (y - 1) / 4 - (y - 1) / 100 + (y - 1) / 400 + daysBeforeMonth y m + d

/-- `dt.weekday` (Monday = 0) of a timestamp cell. -/
def weekdayOf : Val → Nat
  | Val.ts y m d _ => (rataDie y m d + 6) % 7
  | _ => 0

/-- Year component of a timestamp cell. -/
def yearOf : Val → Int
  | Val.ts y _ _ _ => Int.ofNat y
  | _ => 0

/-- Month component of a timestamp cell. -/
def monthOf : Val → Int
  | Val.ts _ m _ _ => Int.ofNat m
  | _ => 0

/-- Day component of a timestamp cell. -/
def dayOf : Val → Int
  | Val.ts _ _ d _ => Int.ofNat d
  | _ => 0

/-- `dt.strftime('%Y%m%d').astype(int)` of a timestamp cell. -/
def dateIdOf (v : Val) : Int :=
  Int.ofNat (ymdKey v)

/-- Insertion into a list sorted ascending by `tsLe`. -/
def insertSorted (v : Val) : List Val → List Val
  | [] => [v]
  | x :: xs => if tsLe x v then x :: insertSorted v xs else v :: x :: xs

/-- Stable sort of a value list by `tsLe` (model of `sort_values('date')`). -/
def sortDates : List Val → List Val
  | [] => []
  | v :: vs => insertSorted v (sortDates vs)

/-- `pd.to_datetime(col).dt.normalize().dropna().unique()`: parse, normalize
to calendar day, drop nulls, keep first occurrences. -/
def normDates (col : List Val) : List Val :=
  dedupByAux (fun v => v) []
    ((col.map (fun v => normalizeVal (toDatetimeVal v))).filter (fun v => decide (v ≠ Val.null)))

/-- One finished `dim_date` row for the date at position `n` (1-based). -/
def dateDimRow (n : Nat) (v : Val) : Row :=
  [("date_sk", Val.int (Int.ofNat n)), ("date", v), ("date_id", Val.int (dateIdOf v)),
   ("year", Val.int (yearOf v)), ("month", Val.int (monthOf v)),
   ("day", Val.int (dayOf v)), ("weekday", Val.int (Int.ofNat (weekdayOf v)))]

/-- Rows of the finished date dimension, numbering from `n`. -/
def dateDimRows : Nat → List Val → List Row
  | _, [] => []
  | n, v :: vs => dateDimRow n v :: dateDimRows (n + 1) vs

/-- Finish the date dimension (`tablas.py` lines 139-146): sort ascending,
insert `date_sk`, add `date_id`, year, month, day, weekday. -/
def finalizeDates (l : List Val) : Table :=
  { cols := ["date_sk", "date", "date_id", "year", "month", "day", "weekday"],
    rows := dateDimRows 1 (sortDates l) }

/-- `_ensure_datetime(df, col)` from `tablas.py`. -/
def ensureDatetime (t : Table) (c : String) : Table :=
  if t.cols.contains c then mapColVals t c toDatetimeVal else t

/-- Deduplicate on the recognized natural-key column when present, on
full-row equality otherwise — the shared shape of every dimension builder. -/
def dedupByNaturalKey (t : Table) (k : String) : Table :=
  if t.cols.contains k then dropDupSubset t [k] else dropDupFull t

/-- `tablas.py` lines 73-74: rename `id` to `customer_id` when needed. -/
def renameCustomersId (t : Table) : Table :=
  if !(t.cols.contains "customer_id") && t.cols.contains "id"
  then renameColT t "id" "customer_id" else t

/-- `dim_customers` builder (`tablas.py` lines 69-85): rename `id` to
`customer_id` when needed, parse `created_at`, deduplicate on the natural
key when present (full rows otherwise), insert `customer_sk`. -/
def buildDimCustomers (st : Option Table) : Option Table :=
  match st with
  | none => none
  | some t =>
      some (insertSk "customer_sk"
        (dedupByNaturalKey (ensureDatetime (renameCustomersId t) "created_at") "customer_id"))

/-- `dim_products` builder (`tablas.py` lines 88-100). -/
def buildDimProducts (st : Option Table) : Option Table :=
  match st with
  | none => none
  | some t =>
      some (insertSk "product_sk"
        (dedupByNaturalKey (ensureDatetime t "created_at") "product_id"))

/-- `tablas.py` lines 109-110: rename `channel_id` to `store_id` when
`store_id` is absent. -/
def renameStoresChannel (t : Table) : Table :=
  if !(t.cols.contains "store_id") && t.cols.contains "channel_id"
  then renameColT t "channel_id" "store_id" else t

/-- `dim_stores` builder (`tablas.py` lines 103-119): `stores` staging with
`channels` fallback, `channel_id` renamed to `store_id` when needed. -/
def buildDimStores (stores channels : Option Table) : Option Table :=
  match (match stores with | some t => some t | none => channels) with
  | none => none
  | some t =>
      some (insertSk "store_sk" (dedupByNaturalKey (renameStoresChannel t) "store_id"))

/-- `dim_address` builder (`tablas.py` lines 153-164). -/
def buildDimAddress (st : Option Table) : Option Table :=
  match st with
  | none => none
  | some t => some (insertSk "address_sk" (dedupByNaturalKey t "address_id"))

/-- `dim_product_category` builder (`tablas.py` lines 167-179). -/
def buildDimProductCategory (st : Option Table) : Option Table :=
  match st with
  | none => none
  | some t => some (insertSk "product_category_sk" (dedupByNaturalKey t "category_id"))

/-- Is the optional date list `None` or empty (`dates is None or dates.empty`)? -/
def emptyOpt (d : Option (List Val)) : Bool :=
  match d with
  | none => true
  | some l => l.isEmpty

/-- `tablas.py` lines 123-125: the initial date source, orders'
`order_date` (an empty extraction stays an empty table, not `None`). -/
def dimDateInit (orders : Option Table) : Option (List Val) :=
  match orders with
  | some o => if o.cols.contains "order_date"
              then some (normDates (getColumnT o "order_date")) else none
  | none => none

/-- `tablas.py` lines 127-129: fall back to customers' `created_at` when
the current source is `None` or empty. -/
def dimDateCust (orders customers : Option Table) : Option (List Val) :=
  if emptyOpt (dimDateInit orders) then
    match customers with
    | some c => if c.cols.contains "created_at"
                then some (normDates (getColumnT c "created_at"))
                else dimDateInit orders
    | none => dimDateInit orders
  else dimDateInit orders

/-- `tablas.py` lines 130-137: fall back to a generated daily calendar
spanning min to max order date when still `None` or empty. -/
def dimDateRange (orders customers : Option Table) : Option (List Val) :=
  if emptyOpt (dimDateCust orders customers) then
    match orders with
    | some o =>
        if o.cols.contains "order_date" then
          match minDate ((getColumnT o "order_date").map toDatetimeVal),
                maxDate ((getColumnT o "order_date").map toDatetimeVal) with
          | some mn, some mx => some (dateRange (normalizeVal mn) (normalizeVal mx))
          | _, _ => dimDateCust orders customers
        else dimDateCust orders customers
    | none => dimDateCust orders customers
  else dimDateCust orders customers

/-- `tablas.py` lines 138-150: finish the selected date list into the date
dimension, or produce `None` when the selection is `None` or empty. -/
def finalizeOpt (d : Option (List Val)) : Option Table :=
  match d with
  | some l => if l.isEmpty then none else some (finalizeDates l)
  | none => none

/-- `dim_date` builder (`tablas.py` lines 121-150): orders' `order_date`
first, then customers' `created_at`, then a generated daily calendar from
min to max order date; `None` when nothing yields a date. -/
def buildDimDate (orders customers : Option Table) : Option Table :=
  finalizeOpt (dimDateRange orders customers)

/-- Source (a) of the spec's precedence: distinct normalized dates from
`orders.order_date` (empty when orders or the column is absent). -/
def aDates (orders : Option Table) : List Val :=
  match orders with
  | some o => if o.cols.contains "order_date"
              then normDates (getColumnT o "order_date") else []
  | none => []

/-- Source (b) of the spec's precedence: distinct normalized dates from
`customers.created_at`. -/
def bDates (customers : Option Table) : List Val :=
  match customers with
  | some c => if c.cols.contains "created_at"
              then normDates (getColumnT c "created_at") else []
  | none => []

/-- Source (c) of the spec's precedence: the generated daily calendar from
min to max `orders.order_date`. -/
def calDates (orders : Option Table) : List Val :=
  match orders with
  | some o =>
      if o.cols.contains "order_date" then
        match minDate ((getColumnT o "order_date").map toDatetimeVal),
              maxDate ((getColumnT o "order_date").map toDatetimeVal) with
        | some mn, some mx => dateRange (normalizeVal mn) (normalizeVal mx)
        | _, _ => []
      else []
  | none => []

/-- Modelled from the spec: the date-dimension source precedence exactly as
section 4.2 words it — (a) distinct normalized dates from `orders.order_date`,
else (b) distinct normalized dates from `customers.created_at`, else (c) a
generated daily calendar spanning min to max order date, else absent. -/
def dimDateSpec (orders customers : Option Table) : Option Table :=
  if !(aDates orders).isEmpty then some (finalizeDates (aDates orders))
  else if !(bDates customers).isEmpty then some (finalizeDates (bDates customers))
  else if !(calDates orders).isEmpty then some (finalizeDates (calDates orders))
  else none

/-- Does `needle` occur at the head of `hay`? -/
def startsWithSeq : List Char → List Char → Bool
  | _, [] => true
  | [], _ :: _ => false
  | a :: as, b :: bs => a == b && startsWithSeq as bs

/-- Python's `needle in hay` substring containment on character lists. -/
def containsSeq : List Char → List Char → Bool
  | [], needle => needle.isEmpty
  | a :: as, needle => startsWithSeq (a :: as) needle || containsSeq as needle

/-- Substring containment on strings (`k in name` in `build_staging`). -/
def strContains (hay needle : String) : Bool :=
  containsSeq hay.toList needle.toList

/-- ASCII lowercasing of a string (Python's `str.lower` on these names). -/
def strLower (s : String) : String :=
  String.mk (s.toList.map Char.toLower)

/-- The `mapping_rules` table of `build_staging` (`desnormalizar.py` lines
70-87) in Python dict insertion order; the duplicated `sales_order_item`
literal key collapses to its first position with the same value. -/
def mappingRules : List (String × String) :=
  [("customer", "customers"), ("product", "products"), ("store", "stores"),
   ("channel", "stores"), ("order_item", "order_items"),
   ("sales_order_item", "order_items"), ("sales_order", "orders"),
   ("order", "orders"), ("payment", "payment"), ("shipment", "shipment"),
   ("web_session", "web_session"), ("nps_response", "nps_response"),
   ("province", "province"), ("product_category", "product_category"),
   ("address", "address")]

/-- Canonical staging name of a raw file stem (`build_staging` lines 92-100):
lowercase the stem, take the first rule whose keyword it contains, else the
lowercased stem itself. -/
def mapTarget (stem : String) : String :=
  match mappingRules.find? (fun kv => strContains (strLower stem) kv.1) with
  | some kv => kv.2
  | none => strLower stem

/-- Generic left-join row production: each left row is paired with every
matching right row, or with one null-extension when no right row matches. -/
def joinRows (kOf gOf : Row → Val) (rrows : List Row)
    (mkM : Row → Row → Row) (mkN : Row → Row) : List Row → List Row
  | [] => []
  | l :: ls =>
      (if (rrows.filter (fun r => decide (gOf r = kOf l))).isEmpty then [mkN l]
       else (rrows.filter (fun r => decide (gOf r = kOf l))).map (mkM l)) ++
      joinRows kOf gOf rrows mkM mkN ls

/-- The overlapping non-key columns suffixed by a `merge(on=key)`. -/
def overlapCols (lt rt : Table) (key : String) : List String :=
  lt.cols.filter (fun c => !(c == key) && rt.cols.contains c)

/-- The null cells appended to an unmatched left row by `merge(how='left')`. -/
def rightNullCells (rt : Table) (key : String) : Row :=
  (rt.cols.filter (fun c => !(c == key))).map (fun c => (c, Val.null))

/-- `lt.merge(rt, on=key, how='left')`: `KeyError` when either side lacks
the key column; overlapping non-key columns get pandas' default suffixes. -/
def mergeLeft (lt rt : Table) (key : String) : Except PyErr Table :=
  if lt.cols.contains key && rt.cols.contains key then
    let ov := overlapCols lt rt key
    let renL := fun c => if ov.contains c then c ++ "_x" else c
    let renR := fun c => if ov.contains c then c ++ "_y" else c
    Except.ok
      { cols := lt.cols.map renL ++ (rt.cols.filter (fun c => !(c == key))).map renR,
        rows := joinRows (fun l => getCellR l key) (fun r => getCellR r key) rt.rows
          (fun l m => renameRowF renL l ++
            renameRowF renR (m.filter (fun p => !(p.1 == key))))
          (fun l => renameRowF renL l ++ (renameRowF renR (rightNullCells rt key)))
          lt.rows }
  else Except.error (PyErr.keyError key)

/-- `lt.merge(rt, left_on=<series>, right_on=rkey, how='left')`: the unnamed
left key series becomes a `key_0` column and the right key column is kept
(both are dropped right afterwards by the source). -/
def mergeOnSeries (lt : Table) (kOf : Row → Val) (rt : Table) (rkey : String) :
    Except PyErr Table :=
  if rt.cols.contains rkey then
    let ov := lt.cols.filter (fun c => rt.cols.contains c)
    let renL := fun c => if ov.contains c then c ++ "_x" else c
    let renR := fun c => if ov.contains c then c ++ "_y" else c
    Except.ok
      { cols := lt.cols.map renL ++ ["key_0"] ++ rt.cols.map renR,
        rows := joinRows kOf (fun r => getCellR r rkey) rt.rows
          (fun l m => renameRowF renL l ++ [("key_0", kOf l)] ++ renameRowF renR m)
          (fun l => renameRowF renL l ++ [("key_0", kOf l)] ++
            renameRowF renR (rt.cols.map (fun c => (c, Val.null))))
          lt.rows }
  else Except.error (PyErr.keyError rkey)

/-- The dimension dictionary returned by `build_dimensions` in `tablas.py`. -/
structure Dims where
  customers : Option Table
  products : Option Table
  stores : Option Table
  dates : Option Table
  address : Option Table
  product_category : Option Table
deriving DecidableEq, Repr

/-- `build_dimensions()` of `tablas.py` assembled from a staging environment. -/
def buildDimensions (env : Env) : Dims :=
  { customers := buildDimCustomers (readEnv env "customers"),
    products := buildDimProducts (readEnv env "products"),
    stores := buildDimStores (readEnv env "stores") (readEnv env "channels"),
    dates := buildDimDate (readEnv env "orders") (readEnv env "customers"),
    address := buildDimAddress (readEnv env "address"),
    product_category := buildDimProductCategory (readEnv env "product_category") }

/-- Cell-wise multiplication: numbers multiply, anything else gives null
(NaN-propagating arithmetic). -/
def mulVal : Val → Val → Val
  | Val.int a, Val.int b => Val.int (a * b)
  | _, _ => Val.null

/-- Column assignment `df[dst] = df[a] * df[b]`. -/
def setColMul (t : Table) (dst a b : String) : Table :=
  { cols := if t.cols.contains dst then t.cols else t.cols ++ [dst],
    rows := t.rows.map (fun r => setCellR r dst (mulVal (getCellR r a) (getCellR r b))) }

/-- `tablas.py` lines 202-203: copy `qty` to `quantity` when missing. -/
def ensureQty (f : Table) : Table :=
  if !(f.cols.contains "quantity") && f.cols.contains "qty"
  then setColFromCol f "quantity" "qty" else f

/-- `tablas.py` lines 204-205: copy `price` to `unit_price` when missing. -/
def ensurePrice (f : Table) : Table :=
  if !(f.cols.contains "unit_price") && f.cols.contains "price"
  then setColFromCol f "unit_price" "price" else f

/-- `tablas.py` lines 202-205 combined. -/
def ensureQtyPrice (f : Table) : Table :=
  ensurePrice (ensureQty f)

/-- `tablas.py` lines 227-228: default `quantity` to the constant 1. -/
def defaultQty (f : Table) : Table :=
  if !(f.cols.contains "quantity") then setColConst f "quantity" (Val.int 1) else f

/-- `tablas.py` lines 229-233: `line_total` from `quantity * unit_price`
when a unit price exists, else null when absent. -/
def computeLineTotal (f : Table) : Table :=
  if f.cols.contains "unit_price" then setColMul f "line_total" "quantity" "unit_price"
  else if !(f.cols.contains "line_total") then setColConst f "line_total" Val.null
  else f

/-- `tablas.py` lines 227-233 combined. -/
def computeMeasures (f : Table) : Table :=
  computeLineTotal (defaultQty f)

/-- The date-resolution step shared by the payment/shipment/session/nps fact
builders: parse the timestamp column, left-join the date dimension on the
normalized day, rename `date_sk`, drop the helper columns. -/
def dateJoinStep (f dd : Table) (tsCol skName : String) : Except PyErr Table :=
  match selectCols dd ["date_sk", "date"] with
  | Except.error e => Except.error e
  | Except.ok sel =>
      match mergeOnSeries (mapColVals f tsCol toDatetimeVal)
          (fun r => normalizeVal (toDatetimeVal (getCellR r tsCol))) sel "date" with
      | Except.error e => Except.error e
      | Except.ok fm =>
          Except.ok (dropColsT
            (if fm.cols.contains "date_sk" then renameColT fm "date_sk" skName else fm)
            ["key_0", "date"])

/-- The date-resolution step of `fact_order_lines` (`tablas.py` lines
216-224), which also carries the dimension's `date_id`. -/
def dateJoinOrderLines (f dd : Table) : Except PyErr Table :=
  match selectCols dd ["date_sk", "date", "date_id"] with
  | Except.error e => Except.error e
  | Except.ok sel =>
      match mergeOnSeries (mapColVals f "order_date" toDatetimeVal)
          (fun r => normalizeVal (toDatetimeVal (getCellR r "order_date"))) sel "date" with
      | Except.error e => Except.error e
      | Except.ok fm =>
          Except.ok (dropColsT
            (if fm.cols.contains "date_sk" then renameColT fm "date_sk" "order_date_sk" else fm)
            ["key_0", "date"])

/-- Final projection to the allowed columns actually present, then
exact-duplicate removal — the tail of every fact builder. -/
def projectDedup (f : Table) (allowed : List String) : Table :=
  dropDupFull (projectCols f (allowed.filter (fun c => f.cols.contains c)))

/-- `tablas.py` lines 197-199: left-join the order header columns onto the
order lines when the orders staging table exists and has `order_id`. -/
def ordersJoinStep (f : Table) (orders : Option Table) : Except PyErr Table :=
  match orders with
  | none => Except.ok f
  | some o =>
      if o.cols.contains "order_id" then
        match selectCols o ["order_id", "order_date", "customer_id", "store_id"] with
        | Except.error e => Except.error e
        | Except.ok sel => mergeLeft f sel "order_id"
      else Except.ok f

/-- `tablas.py` lines 208-213: attach one dimension's surrogate key by a
left join on its natural key, when the dimension exists and the fact table
has the key column. -/
def skJoinStep (f : Table) (dimTable : Option Table) (sk key : String) :
    Except PyErr Table :=
  match dimTable with
  | none => Except.ok f
  | some dt =>
      if f.cols.contains key then
        match selectCols dt [sk, key] with
        | Except.error e => Except.error e
        | Except.ok sel => mergeLeft f sel key
      else Except.ok f

/-- `tablas.py` lines 216-224: the guarded date join of `fact_order_lines`. -/
def dateJoinOLStep (f : Table) (dates : Option Table) : Except PyErr Table :=
  match dates with
  | none => Except.ok f
  | some dd =>
      if f.cols.contains "order_date" then dateJoinOrderLines f dd else Except.ok f

/-- The guarded date join shared by the four single-source fact builders:
skip when the date dimension is absent or the guard condition on the fact
table's columns fails. -/
def dateStepGuard (p : Table) (dates : Option Table) (g : Bool)
    (tsCol skName : String) : Except PyErr Table :=
  match dates with
  | none => Except.ok p
  | some dd => if g then dateJoinStep p dd tsCol skName else Except.ok p

/-- `fact_order_lines` builder (`tablas.py` lines 195-240). -/
def buildFactOrderLines (items orders : Option Table) (dims : Dims) :
    Except PyErr (Option Table) :=
  match items with
  | none => Except.ok none
  | some it =>
      match ordersJoinStep it orders with
      | Except.error e => Except.error e
      | Except.ok f1 =>
          match skJoinStep (ensureQtyPrice f1) dims.customers "customer_sk" "customer_id" with
          | Except.error e => Except.error e
          | Except.ok f2 =>
              match skJoinStep f2 dims.products "product_sk" "product_id" with
              | Except.error e => Except.error e
              | Except.ok f3 =>
                  match skJoinStep f3 dims.stores "store_sk" "store_id" with
                  | Except.error e => Except.error e
                  | Except.ok f4 =>
                      match dateJoinOLStep f4 dims.dates with
                      | Except.error e => Except.error e
                      | Except.ok f5 =>
                          Except.ok (some (projectDedup (computeMeasures f5)
                            ["order_id", "order_date_sk", "customer_sk", "product_sk",
                             "store_sk", "quantity", "unit_price", "line_total"]))

/-- `fact_payments` builder (`tablas.py` lines 266-277). -/
def buildFactPayments (pay : Option Table) (dims : Dims) : Except PyErr (Option Table) :=
  match pay with
  | none => Except.ok none
  | some p =>
      match dateStepGuard p dims.dates
          (p.cols.contains "order_id" && p.cols.contains "created_at")
          "created_at" "payment_date_sk" with
      | Except.error e => Except.error e
      | Except.ok f =>
          Except.ok (some (projectDedup f
            ["payment_id", "order_id", "payment_date_sk", "amount", "status",
             "payment_method"]))

/-- `fact_shipments` builder (`tablas.py` lines 282-293). -/
def buildFactShipments (ship : Option Table) (dims : Dims) : Except PyErr (Option Table) :=
  match ship with
  | none => Except.ok none
  | some s =>
      match dateStepGuard s dims.dates
          (s.cols.contains "order_id" && s.cols.contains "shipped_at")
          "shipped_at" "shipped_date_sk" with
      | Except.error e => Except.error e
      | Except.ok f =>
          Except.ok (some (projectDedup f
            ["shipment_id", "order_id", "shipped_date_sk", "carrier", "status",
             "tracking_number"]))

/-- `fact_web_sessions` builder (`tablas.py` lines 298-309). -/
def buildFactWebSessions (ws : Option Table) (dims : Dims) : Except PyErr (Option Table) :=
  match ws with
  | none => Except.ok none
  | some w =>
      match dateStepGuard w dims.dates (w.cols.contains "started_at")
          "started_at" "session_date_sk" with
      | Except.error e => Except.error e
      | Except.ok f =>
          Except.ok (some (projectDedup f
            ["session_id", "customer_id", "session_date_sk", "page_views",
             "duration_seconds"]))

/-- `fact_nps` builder (`tablas.py` lines 314-325). -/
def buildFactNps (nps : Option Table) (dims : Dims) : Except PyErr (Option Table) :=
  match nps with
  | none => Except.ok none
  | some n =>
      match dateStepGuard n dims.dates (n.cols.contains "response_date")
          "response_date" "response_date_sk" with
      | Except.error e => Except.error e
      | Except.ok f =>
          Except.ok (some (projectDedup f
            ["nps_id", "customer_id", "response_date_sk", "score", "comment"]))

/-- Python truthiness of a `read_table` result: `None` is falsy, a pandas
DataFrame raises `ValueError` from `__bool__`. -/
def truthyTable : Option Table → Except PyErr Bool
  | none => Except.ok false
  | some _ => Except.error (PyErr.valueError "The truth value of a DataFrame is ambiguous")

/-- Python's short-circuiting `a or b` applied to `read_table` results. -/
def pyOr (a : Option Table) (b : Unit → Except PyErr (Option Table)) :
    Except PyErr (Option Table) := do
  if (← truthyTable a) then pure a else b ()

/-- `desnormalizar.py` line 173: `read_table("stores") or read_table("channels")`. -/
def desnormStoresRead (env : Env) : Except PyErr (Option Table) :=
  pyOr (readEnv env "stores") (fun _ => Except.ok (readEnv env "channels"))

/-- `desnormalizar.py` line 224:
`read_table("order_items") or read_table("items") or read_table("orderlines")`. -/
def desnormItemsRead (env : Env) : Except PyErr (Option Table) :=
  pyOr (readEnv env "order_items") (fun _ =>
    pyOr (readEnv env "items") (fun _ => Except.ok (readEnv env "orderlines")))

/-- Result of a table write attempt. -/
inductive WriteResult where
  | skippedEmpty : WriteResult
  | wroteParquet : WriteResult
  | wroteCsvFallback : WriteResult
  | loggedError : WriteResult
deriving DecidableEq, Repr

/-- `write_table` of `tablas.py` (lines 42-57): no-op on null/empty, parquet
first, csv fallback, logged error when both fail; total (never raises). -/
def writeTableTablas (df : Option Table) (parquetOk csvOk : Bool) : WriteResult :=
  match df with
  | none => WriteResult.skippedEmpty
  | some t =>
      if t.rows.isEmpty then WriteResult.skippedEmpty
      else if parquetOk then WriteResult.wroteParquet
      else if csvOk then WriteResult.wroteCsvFallback
      else WriteResult.loggedError

/-- `write_table` of `desnormalizar.py` (lines 142-148): no-op on null/empty,
otherwise a bare `to_parquet` whose failure propagates to the caller. -/
def writeTableDesnorm (df : Option Table) (parquetOk : Bool) : Except PyErr WriteResult :=
  match df with
  | none => Except.ok WriteResult.skippedEmpty
  | some t =>
      if t.rows.isEmpty then Except.ok WriteResult.skippedEmpty
      else if parquetOk then Except.ok WriteResult.wroteParquet
      else Except.error (PyErr.writeFailed "to_parquet")

/-- `write_staging` of `desnormalizar.py` (lines 48-55): same bare shape. -/
def writeStagingModel (df : Option Table) (parquetOk : Bool) : Except PyErr WriteResult :=
  match df with
  | none => Except.ok WriteResult.skippedEmpty
  | some t =>
      if t.rows.isEmpty then Except.ok WriteResult.skippedEmpty
      else if parquetOk then Except.ok WriteResult.wroteParquet
      else Except.error (PyErr.writeFailed "to_parquet")

/-- The guarded staging write of `build_staging` (lines 127-136): call
`write_staging`, fall back to csv on any exception, log an error when the
fallback fails too. -/
def stagingSafeWrite (df : Option Table) (parquetOk csvOk : Bool) : WriteResult :=
  match writeStagingModel df parquetOk with
  | Except.ok r => r
  | Except.error _ =>
      if csvOk then WriteResult.wroteCsvFallback else WriteResult.loggedError

/-- First column recognized as a quantity by `build_fact_order_lineitems`
(`desnormalizar.py` line 250). -/
def qtyColOf (df : Table) : Option String :=
  df.cols.find? (fun c => ["quantity", "qty", "units"].contains (strLower c))

/-- First column recognized as a price by `build_fact_order_lineitems`
(`desnormalizar.py` line 251). -/
def priceColOf (df : Table) : Option String :=
  df.cols.find? (fun c => ["price", "unit_price", "unitprice", "precio"].contains (strLower c))

/-- The measure computation of `build_fact_order_lineitems`
(`desnormalizar.py` lines 250-258): the quantity and price columns are
selected from the incoming frame's columns, then `quantity`, `unit_price`
and `line_total` are assigned in that order. -/
def measuresDesnorm (df : Table) : Table :=
  match qtyColOf df, priceColOf df with
  | some qc, some pc =>
      setColMul (setColFromCol (setColFromCol df "quantity" qc) "unit_price" pc)
        "line_total" "quantity" "unit_price"
  | some qc, none =>
      setColConst (setColConst (setColFromCol df "quantity" qc) "unit_price" Val.null)
        "line_total" Val.null
  | none, some pc =>
      setColMul (setColFromCol (setColConst df "quantity" (Val.int 1)) "unit_price" pc)
        "line_total" "quantity" "unit_price"
  | none, none =>
      setColConst (setColConst (setColConst df "quantity" (Val.int 1)) "unit_price" Val.null)
        "line_total" Val.null

/-- Example order-items staging table with a single line. -/
def exItems : Table :=
  ⟨["order_id", "product_id"], [[("order_id", Val.int 1), ("product_id", Val.int 9)]]⟩

/-- Example orders staging table in which `order_id` 1 occurs twice with two
different customers. -/
def exOrdersDup : Table :=
  ⟨["order_id", "order_date", "customer_id", "store_id"],
   [[("order_id", Val.int 1), ("order_date", Val.null),
     ("customer_id", Val.int 1), ("store_id", Val.null)],
    [("order_id", Val.int 1), ("order_date", Val.null),
     ("customer_id", Val.int 2), ("store_id", Val.null)]]⟩

/-- Example customers staging table with two distinct customers. -/
def exCustStaging : Table :=
  ⟨["customer_id"], [[("customer_id", Val.int 1)], [("customer_id", Val.int 2)]]⟩

/-- Dimension dictionary with only the customers dimension available. -/
def exDimsCust : Dims :=
  ⟨buildDimCustomers (some exCustStaging), none, none, none, none, none⟩

/-- Dimension dictionary with no dimension available. -/
def dimsNone : Dims := ⟨none, none, none, none, none, none⟩

/-- Example order-items staging table whose quantity lives in a `units`
column. -/
def exItemsUnits : Table :=
  ⟨["order_id", "units"], [[("order_id", Val.int 1), ("units", Val.int 5)]]⟩

/-- Example fact table with one row, keyed by `customer_id` 5. -/
def exFactLeft : Table :=
  ⟨["customer_id"], [[("customer_id", Val.int 5)]]⟩

/-- Example customers dimension holding only `customer_id` 1. -/
def exDimRight : Table :=
  ⟨["customer_sk", "customer_id"],
   [[("customer_sk", Val.int 1), ("customer_id", Val.int 1)]]⟩

/-- The left-join of `exFactLeft` against `exDimRight`. -/
def exJoinRes : Table :=
  ⟨["customer_id", "customer_sk"],
   [[("customer_id", Val.int 5), ("customer_sk", Val.null)]]⟩

/-- Example non-empty one-cell table. -/
def exOneCell : Table := ⟨["a"], [[("a", Val.int 1)]]⟩

/-- Example customers staging table where `customer_id` 1 occurs twice with
different names. -/
def exCustomersDup : Table :=
  ⟨["customer_id", "name"],
   [[("customer_id", Val.int 1), ("name", Val.str "A")],
    [("customer_id", Val.int 1), ("name", Val.str "B")],
    [("customer_id", Val.int 2), ("name", Val.str "C")]]⟩

/-- Example payments staging table with two identical rows. -/
def exPayments : Table :=
  ⟨["payment_id", "order_id", "amount"],
   [[("payment_id", Val.int 1), ("order_id", Val.int 1), ("amount", Val.int 10)],
    [("payment_id", Val.int 1), ("order_id", Val.int 1), ("amount", Val.int 10)]]⟩

theorem getCellR_setCellR_same (r : Row) (c : String) (v : Val) :
    getCellR (setCellR r c v) c = v := by
  induction r with
  | nil => simp [setCellR, getCellR]
  | cons p ps ih =>
      by_cases h : p.1 == c
      · simp [setCellR, getCellR, h]
      · simp [setCellR, getCellR, h, ih]

theorem getCellR_setCellR_ne (r : Row) (c c' : String) (v : Val) (h : c' ≠ c) :
    getCellR (setCellR r c v) c' = getCellR r c' := by
  have hcc : (c == c') = false := by
    rcases hbe : c == c' with _ | _
    · rfl
    · exact absurd (eq_of_beq hbe).symm h
  induction r with
  | nil => simp [setCellR, getCellR, hcc]
  | cons p ps ih =>
      by_cases hp : p.1 == c
      · have hpc : p.1 = c := eq_of_beq hp
        simp [setCellR, getCellR, hp, hpc, hcc]
      · simp [setCellR, getCellR, hp, ih]

theorem getCellR_projRow (cs : List String) (r : Row) (c : String) :
    c ∈ cs → getCellR (projRow cs r) c = getCellR r c := by
  induction cs with
  | nil => intro h; cases h
  | cons c0 cs ih =>
      intro h
      by_cases h0 : c0 == c
      · have : c0 = c := eq_of_beq h0
        simp [projRow, getCellR, h0, this]
      · rcases List.mem_cons.mp h with rfl | h
        · exact absurd (by simp) h0
        · simpa [projRow, getCellR, h0] using ih h

theorem length_dedupByAux_le {α κ : Type} [DecidableEq κ] (key : α → κ)
    (l : List α) : ∀ seen, (dedupByAux key seen l).length ≤ l.length := by
  induction l with
  | nil => intro seen; simp [dedupByAux]
  | cons x xs ih =>
      intro seen
      by_cases h : key x ∈ seen
      · simp only [dedupByAux, if_pos h]
        exact Nat.le_succ_of_le (ih seen)
      · simp only [dedupByAux, if_neg h, List.length_cons]
        exact Nat.succ_le_succ (ih _)

theorem dedupByAux_nil_iff {α κ : Type} [DecidableEq κ] (key : α → κ) (l : List α) :
    dedupByAux key [] l = [] ↔ l = [] := by
  cases l with
  | nil => simp [dedupByAux]
  | cons x xs => simp [dedupByAux]

theorem filter_eq_nil_of_false {α : Type} (p : α → Bool) (l : List α)
    (h : ∀ a ∈ l, p a = false) : l.filter p = [] := by
  induction l with
  | nil => rfl
  | cons x xs ih =>
      have hx := h x (by simp)
      simp only [List.filter_cons, hx, Bool.false_eq_true, if_false]
      exact ih (fun a ha => h a (by simp [ha]))

theorem filter_length_le_one_of_nodup {α κ : Type} [DecidableEq κ] (g : α → κ)
    (l : List α) (hnd : (l.map g).Nodup) (v : κ) :
    (l.filter (fun r => decide (g r = v))).length ≤ 1 := by
  induction l with
  | nil => simp
  | cons a l ih =>
      simp only [List.map_cons, List.nodup_cons] at hnd
      by_cases h : g a = v
      · have hnil : l.filter (fun r => decide (g r = v)) = [] := by
          apply filter_eq_nil_of_false
          intro r hr
          simp only [decide_eq_false_iff_not]
          intro hgr
          apply hnd.1
          have hav : g a = g r := by rw [h, hgr]
          rw [hav]
          exact List.mem_map_of_mem g hr
        simp [List.filter_cons, h, hnil]
      · simpa [List.filter_cons, h] using ih hnd.2

theorem length_joinRows_ge (kOf gOf : Row → Val) (rrows : List Row)
    (mkM : Row → Row → Row) (mkN : Row → Row) (ls : List Row) :
    ls.length ≤ (joinRows kOf gOf rrows mkM mkN ls).length := by
  induction ls with
  | nil => simp [joinRows]
  | cons l ls ih =>
      rcases hf : rrows.filter (fun r => decide (gOf r = kOf l)) with _ | ⟨a, as⟩
      · simp only [joinRows, hf, List.isEmpty_nil, if_true, List.singleton_append,
          List.length_cons]
        omega
      · simp only [joinRows, hf, List.isEmpty_cons, List.length_append,
          List.length_map, List.length_cons]
        have : (if false = true then [mkN l] else (mkM l a :: (as.map (mkM l)))).length
            = 1 + as.length := by simp; omega
        simp only [List.map_cons] at this ⊢
        omega

theorem length_joinRows_le (kOf gOf : Row → Val) (rrows : List Row)
    (mkM : Row → Row → Row) (mkN : Row → Row) (ls : List Row)
    (h : ∀ l ∈ ls, (rrows.filter (fun r => decide (gOf r = kOf l))).length ≤ 1) :
    (joinRows kOf gOf rrows mkM mkN ls).length ≤ ls.length := by
  induction ls with
  | nil => simp [joinRows]
  | cons l ls ih =>
      have h1 := h l (by simp)
      have hrest := ih (fun x hx => h x (by simp [hx]))
      rcases hf : rrows.filter (fun r => decide (gOf r = kOf l)) with _ | ⟨a, as⟩
      · simp only [joinRows, hf, List.isEmpty_nil, if_true, List.singleton_append,
          List.length_cons]
        omega
      · rw [hf] at h1
        simp only [List.length_cons] at h1
        simp only [joinRows, hf, List.isEmpty_cons, List.length_append,
          List.map_cons, List.length_cons, List.length_map]
        have : (if false = true then [mkN l] else (mkM l a :: (as.map (mkM l)))).length
            = 1 + as.length := by simp; omega
        simp only [List.map_cons] at this ⊢
        omega

theorem joinRows_mem_null (kOf gOf : Row → Val) (rrows : List Row)
    (mkM : Row → Row → Row) (mkN : Row → Row) (ls : List Row) (l : Row)
    (hl : l ∈ ls) (hno : rrows.filter (fun r => decide (gOf r = kOf l)) = []) :
    mkN l ∈ joinRows kOf gOf rrows mkM mkN ls := by
  induction ls with
  | nil => cases hl
  | cons x xs ih =>
      simp only [joinRows, List.mem_append]
      rcases List.mem_cons.mp hl with rfl | hl
      · left
        simp [hno]
      · right
        exact ih hl

theorem length_insertSkRows (name : String) (rs : List Row) :
    ∀ n, (insertSkRows name n rs).length = rs.length := by
  induction rs with
  | nil => intro n; rfl
  | cons r rs ih => intro n; simp [insertSkRows, ih]

theorem getCellR_insertSkRows (name : String) (rs : List Row) :
    ∀ n, (insertSkRows name n rs).map (fun r => getCellR r name) = skRange n rs.length := by
  induction rs with
  | nil => intro n; rfl
  | cons r rs ih =>
      intro n
      simp only [insertSkRows, List.map_cons, List.length_cons, skRange, getCellR]
      rw [ih (n + 1)]
      simp

theorem mem_skRange (v : Val) (len : Nat) :
    ∀ n, v ∈ skRange n len → ∃ k, k < len ∧ v = Val.int (Int.ofNat (n + k)) := by
  induction len with
  | zero => intro n h; cases h
  | succ len ih =>
      intro n h
      rcases List.mem_cons.mp h with rfl | h
      · exact ⟨0, by omega, by simp⟩
      · rcases ih (n + 1) h with ⟨k, hk, rfl⟩
        exact ⟨k + 1, by omega, by congr 2; omega⟩

theorem skRange_nodup (len : Nat) : ∀ n, (skRange n len).Nodup := by
  induction len with
  | zero => intro n; simp [skRange]
  | succ len ih =>
      intro n
      simp only [skRange, List.nodup_cons]
      refine ⟨fun h => ?_, ih (n + 1)⟩
      rcases mem_skRange _ _ _ h with ⟨k, _, hk⟩
      simp only [Val.int.injEq] at hk
      have hnk : n = n + 1 + k := Int.ofNat.inj hk
      omega

theorem sk_dense_insertSk (name : String) (t : Table) :
    getColumnT (insertSk name t) name = skRange 1 (insertSk name t).rows.length ∧
    (getColumnT (insertSk name t) name).Nodup := by
  have h1 : getColumnT (insertSk name t) name = skRange 1 t.rows.length := by
    simp [getColumnT, insertSk, getCellR_insertSkRows]
  have h2 : (insertSk name t).rows.length = t.rows.length := by
    simp [insertSk, length_insertSkRows]
  rw [h2, h1]
  exact ⟨rfl, skRange_nodup _ _⟩

theorem getCellR_dateDimRow (n : Nat) (v : Val) :
    getCellR (dateDimRow n v) "date_sk" = Val.int (Int.ofNat n) := by
  rfl

theorem length_dateDimRows (l : List Val) :
    ∀ n, (dateDimRows n l).length = l.length := by
  induction l with
  | nil => intro n; rfl
  | cons v vs ih => intro n; simp [dateDimRows, ih]

theorem getCellR_dateDimRows (l : List Val) :
    ∀ n, (dateDimRows n l).map (fun r => getCellR r "date_sk") = skRange n l.length := by
  induction l with
  | nil => intro n; rfl
  | cons v vs ih =>
      intro n
      simp only [dateDimRows, List.map_cons, List.length_cons, skRange]
      rw [ih (n + 1)]
      simp [getCellR_dateDimRow]

theorem sk_dense_finalizeDates (l : List Val) :
    getColumnT (finalizeDates l) "date_sk" = skRange 1 (finalizeDates l).rows.length ∧
    (getColumnT (finalizeDates l) "date_sk").Nodup := by
  have h1 : getColumnT (finalizeDates l) "date_sk" = skRange 1 (sortDates l).length := by
    simp [getColumnT, finalizeDates, getCellR_dateDimRows]
  have h2 : (finalizeDates l).rows.length = (sortDates l).length := by
    simp [finalizeDates, length_dateDimRows]
  rw [h2, h1]
  exact ⟨rfl, skRange_nodup _ _⟩

theorem dedupByAux_first_occurrence {κ : Type} [DecidableEq κ] (key : Row → κ)
    (l : List Row) : ∀ seen r, r ∈ dedupByAux key seen l →
    key r ∉ seen ∧ l.find? (fun x => decide (key x = key r)) = some r := by
  induction l with
  | nil => intro seen r h; cases h
  | cons x xs ih =>
      intro seen r h
      by_cases hx : key x ∈ seen
      · simp only [dedupByAux, if_pos hx] at h
        rcases ih seen r h with ⟨hns, hfind⟩
        refine ⟨hns, ?_⟩
        have hne : (decide (key x = key r)) = false := by
          simp only [decide_eq_false_iff_not]
          intro hxy
          exact hns (hxy ▸ hx)
        simp [List.find?_cons, hne, hfind]
      · simp only [dedupByAux, if_neg hx] at h
        rcases List.mem_cons.mp h with rfl | h
        · exact ⟨hx, by simp [List.find?_cons]⟩
        · rcases ih _ r h with ⟨hns, hfind⟩
          simp only [List.mem_cons, not_or] at hns
          refine ⟨hns.2, ?_⟩
          have hne : (decide (key x = key r)) = false := by
            simp only [decide_eq_false_iff_not]
            intro hxy
            exact hns.1 hxy.symm
          simp [List.find?_cons, hne, hfind]

theorem dedupByAux_key_covered {κ : Type} [DecidableEq κ] (key : Row → κ)
    (l : List Row) : ∀ seen x, x ∈ l →
    key x ∈ seen ∨ ∃ r ∈ dedupByAux key seen l, key r = key x := by
  induction l with
  | nil => intro seen x h; cases h
  | cons y ys ih =>
      intro seen x h
      rcases List.mem_cons.mp h with rfl | h
      · by_cases hy : key x ∈ seen
        · exact Or.inl hy
        · exact Or.inr ⟨x, by simp [dedupByAux, if_neg hy], rfl⟩
      · by_cases hy : key y ∈ seen
        · rcases ih seen x h with hs | ⟨r, hr, hk⟩
          · exact Or.inl hs
          · exact Or.inr ⟨r, by simp [dedupByAux, if_pos hy, hr], hk⟩
        · rcases ih (key y :: seen) x h with hs | ⟨r, hr, hk⟩
          · rcases List.mem_cons.mp hs with he | hs
            · exact Or.inr ⟨y, by simp [dedupByAux, if_neg hy], he.symm⟩
            · exact Or.inl hs
          · exact Or.inr ⟨r, by simp [dedupByAux, if_neg hy, hr], hk⟩

theorem dedupByAux_sublist {κ : Type} [DecidableEq κ] (key : Row → κ)
    (l : List Row) : ∀ seen, List.Sublist (dedupByAux key seen l) l := by
  induction l with
  | nil => intro seen; simp [dedupByAux]
  | cons x xs ih =>
      intro seen
      by_cases hx : key x ∈ seen
      · simp only [dedupByAux, if_pos hx]
        exact List.Sublist.cons x (ih seen)
      · simp only [dedupByAux, if_neg hx]
        exact List.Sublist.cons₂ x (ih _)

theorem length_projectCols (t : Table) (cs : List String) :
    (projectCols t cs).rows.length = t.rows.length := by
  simp [projectCols]

theorem selectCols_ok (t : Table) (cs : List String) (r : Table)
    (h : selectCols t cs = Except.ok r) : r = projectCols t cs := by
  unfold selectCols at h
  split at h
  · exact (Except.ok.inj h).symm
  · simp at h

theorem length_projectDedup_le (f : Table) (al : List String) :
    (projectDedup f al).rows.length ≤ f.rows.length := by
  calc (projectDedup f al).rows.length
      ≤ (projectCols f (al.filter (fun c => f.cols.contains c))).rows.length := by
        simpa [projectDedup, dropDupFull] using
          length_dedupByAux_le (fun r => r)
            (projectCols f (al.filter (fun c => f.cols.contains c))).rows []
    _ = f.rows.length := length_projectCols _ _

theorem length_mapColVals (t : Table) (c : String) (f : Val → Val) :
    (mapColVals t c f).rows.length = t.rows.length := by
  simp [mapColVals]

theorem length_renameColT (t : Table) (old new : String) :
    (renameColT t old new).rows.length = t.rows.length := by
  simp [renameColT]

theorem length_dropColsT (t : Table) (cs : List String) :
    (dropColsT t cs).rows.length = t.rows.length := by
  simp [dropColsT]

theorem length_setColConst (t : Table) (c : String) (v : Val) :
    (setColConst t c v).rows.length = t.rows.length := by
  simp [setColConst]

theorem length_setColFromCol (t : Table) (dst src : String) :
    (setColFromCol t dst src).rows.length = t.rows.length := by
  simp [setColFromCol]

theorem length_setColMul (t : Table) (dst a b : String) :
    (setColMul t dst a b).rows.length = t.rows.length := by
  simp [setColMul]

theorem length_ensureQty (f : Table) : (ensureQty f).rows.length = f.rows.length := by
  unfold ensureQty
  split
  · simp [length_setColFromCol]
  · rfl

theorem length_ensurePrice (f : Table) : (ensurePrice f).rows.length = f.rows.length := by
  unfold ensurePrice
  split
  · simp [length_setColFromCol]
  · rfl

theorem length_ensureQtyPrice (f : Table) :
    (ensureQtyPrice f).rows.length = f.rows.length := by
  unfold ensureQtyPrice
  rw [length_ensurePrice, length_ensureQty]

theorem length_defaultQty (f : Table) : (defaultQty f).rows.length = f.rows.length := by
  unfold defaultQty
  split
  · simp [length_setColConst]
  · rfl

theorem length_computeLineTotal (f : Table) :
    (computeLineTotal f).rows.length = f.rows.length := by
  unfold computeLineTotal
  split
  · simp [length_setColMul]
  · split
    · simp [length_setColConst]
    · rfl

theorem length_computeMeasures (f : Table) :
    (computeMeasures f).rows.length = f.rows.length := by
  unfold computeMeasures
  rw [length_computeLineTotal, length_defaultQty]

theorem getColumnT_projectCols (t : Table) (cs : List String) (c : String) (h : c ∈ cs) :
    getColumnT (projectCols t cs) c = getColumnT t c := by
  simp only [getColumnT, projectCols, List.map_map]
  apply List.map_congr_left
  intro r _
  exact getCellR_projRow cs r c h

theorem mergeLeft_ok_rows (lt rt : Table) (key : String) (res : Table)
    (h : mergeLeft lt rt key = Except.ok res) :
    res.rows = joinRows (fun l => getCellR l key) (fun r => getCellR r key) rt.rows
      (fun l m => renameRowF (fun c => if (overlapCols lt rt key).contains c then c ++ "_x" else c) l ++
        renameRowF (fun c => if (overlapCols lt rt key).contains c then c ++ "_y" else c)
          (m.filter (fun p => !(p.1 == key))))
      (fun l => renameRowF (fun c => if (overlapCols lt rt key).contains c then c ++ "_x" else c) l ++
        renameRowF (fun c => if (overlapCols lt rt key).contains c then c ++ "_y" else c)
          (rightNullCells rt key))
      lt.rows := by
  unfold mergeLeft at h
  split at h
  · rw [← Except.ok.inj h]
  · simp at h

theorem mergeLeft_length_le (lt rt : Table) (key : String) (res : Table)
    (h : mergeLeft lt rt key = Except.ok res)
    (hnd : (rt.rows.map (fun r => getCellR r key)).Nodup) :
    res.rows.length ≤ lt.rows.length := by
  rw [mergeLeft_ok_rows lt rt key res h]
  apply length_joinRows_le
  intro l _
  exact filter_length_le_one_of_nodup (fun r => getCellR r key) rt.rows hnd _

theorem mergeOnSeries_ok_rows (lt : Table) (kOf : Row → Val) (rt : Table)
    (rkey : String) (res : Table) (h : mergeOnSeries lt kOf rt rkey = Except.ok res) :
    res.rows = joinRows kOf (fun r => getCellR r rkey) rt.rows
      (fun l m => renameRowF (fun c => if (lt.cols.filter (fun c0 => rt.cols.contains c0)).contains c then c ++ "_x" else c) l ++
        [("key_0", kOf l)] ++
        renameRowF (fun c => if (lt.cols.filter (fun c0 => rt.cols.contains c0)).contains c then c ++ "_y" else c) m)
      (fun l => renameRowF (fun c => if (lt.cols.filter (fun c0 => rt.cols.contains c0)).contains c then c ++ "_x" else c) l ++
        [("key_0", kOf l)] ++
        renameRowF (fun c => if (lt.cols.filter (fun c0 => rt.cols.contains c0)).contains c then c ++ "_y" else c)
          (rt.cols.map (fun c => (c, Val.null))))
      lt.rows := by
  unfold mergeOnSeries at h
  split at h
  · rw [← Except.ok.inj h]
  · simp at h

theorem mergeOnSeries_length_le (lt : Table) (kOf : Row → Val) (rt : Table)
    (rkey : String) (res : Table) (h : mergeOnSeries lt kOf rt rkey = Except.ok res)
    (hnd : (rt.rows.map (fun r => getCellR r rkey)).Nodup) :
    res.rows.length ≤ lt.rows.length := by
  rw [mergeOnSeries_ok_rows lt kOf rt rkey res h]
  apply length_joinRows_le
  intro l _
  exact filter_length_le_one_of_nodup (fun r => getCellR r rkey) rt.rows hnd _

theorem normalize_toDatetime_null (v : Val) :
    normalizeVal (toDatetimeVal v) = Val.null ↔ toDatetimeVal v = Val.null := by
  cases v <;> simp [toDatetimeVal, normalizeVal]

theorem filter_norm_nil_iff (col : List Val) :
    (col.map (fun v => normalizeVal (toDatetimeVal v))).filter
      (fun v => decide (v ≠ Val.null)) = [] ↔
    (col.map toDatetimeVal).filter (fun v => decide (v ≠ Val.null)) = [] := by
  induction col with
  | nil => simp
  | cons v vs ih =>
      by_cases hv : toDatetimeVal v = Val.null
      · have hn : normalizeVal (toDatetimeVal v) = Val.null :=
          (normalize_toDatetime_null v).mpr hv
        have h1 : (decide (normalizeVal (toDatetimeVal v) ≠ Val.null)) = false := by
          simp [hn]
        have h2 : (decide (toDatetimeVal v ≠ Val.null)) = false := by simp [hv]
        simp only [List.map_cons, List.filter_cons, h1, h2, Bool.false_eq_true, if_false]
        exact ih
      · have hn : ¬ normalizeVal (toDatetimeVal v) = Val.null :=
          fun h => hv ((normalize_toDatetime_null v).mp h)
        have h1 : (decide (normalizeVal (toDatetimeVal v) ≠ Val.null)) = true := by
          simp [hn]
        have h2 : (decide (toDatetimeVal v ≠ Val.null)) = true := by simp [hv]
        simp only [List.map_cons, List.filter_cons, h1, h2, if_true]
        simp

theorem foldl_minStep_isSome (l : List Val) :
    ∀ m : Val, (l.foldl minStep (some m)).isSome = true := by
  induction l with
  | nil => intro m; rfl
  | cons x xs ih =>
      intro m
      simp only [List.foldl_cons, minStep]
      exact ih _

theorem minDate_none_iff (l : List Val) :
    minDate l = none ↔ l.filter (fun v => decide (v ≠ Val.null)) = [] := by
  unfold minDate
  rcases hf : l.filter (fun v => decide (v ≠ Val.null)) with _ | ⟨x, xs⟩
  · simp
  · simp only [List.foldl_cons, minStep]
    constructor
    · intro h
      have hs := foldl_minStep_isSome xs x
      rw [h] at hs
      simp at hs
    · intro h
      cases h

theorem normDates_nil_iff (col : List Val) :
    normDates col = [] ↔ minDate (col.map toDatetimeVal) = none := by
  unfold normDates
  rw [dedupByAux_nil_iff, filter_norm_nil_iff]
  exact (minDate_none_iff _).symm

theorem find?_append_of_none {α : Type} (p : α → Bool) (l1 l2 : List α)
    (h : ∀ x ∈ l1, p x = false) : (l1 ++ l2).find? p = l2.find? p := by
  induction l1 with
  | nil => rfl
  | cons x xs ih =>
      have hx := h x (by simp)
      simp only [List.cons_append, List.find?_cons, hx]
      exact ih (fun a ha => h a (by simp [ha]))

/-- C2: the presence of an `order_items` raw table makes the staging-script
fact builder raise: `read_table("order_items") or ...` evaluates DataFrame
truthiness, which raises `ValueError` out of `build_fact_order_lineitems`
instead of being contained. -/
theorem c2_or_bug_raises :
    desnormItemsRead [("order_items", exItems)] =
      Except.error (PyErr.valueError "The truth value of a DataFrame is ambiguous") := by
  rfl

/-- C5: the presence of a `stores` raw table makes the staging-script stores
dimension builder raise: `read_table("stores") or read_table("channels")`
evaluates DataFrame truthiness, which raises `ValueError` instead of
completing with the stores dimension. -/
theorem c5_or_bug_raises :
    desnormStoresRead [("stores", exOneCell)] =
      Except.error (PyErr.valueError "The truth value of a DataFrame is ambiguous") := by
  rfl

/-- C3 counterexample: the warehouse writer of `desnormalizar.py` raises to
its caller when the parquet write of a non-empty table fails, instead of
falling back to csv — the writer contract is not uniform across stages. -/
theorem c3_counterexample :
    writeTableDesnorm (some exOneCell) false =
      Except.error (PyErr.writeFailed "to_parquet") := by
  rfl

/-- C3 (amended): writing a null or empty table is a no-op in every writer;
the `tablas.py` writer and the staging-stage guarded write attempt parquet
first, fall back to csv, and log an error when both fail, never raising
(they are total functions); but the `desnormalizar.py` warehouse writer
propagates a parquet write failure on any non-empty table. -/
theorem c3_writer_contract :
    (∀ (df : Option Table) (pOk cOk : Bool),
       (df = none ∨ ∃ t, df = some t ∧ t.rows = []) →
       writeTableTablas df pOk cOk = WriteResult.skippedEmpty ∧
       stagingSafeWrite df pOk cOk = WriteResult.skippedEmpty ∧
       writeTableDesnorm df pOk = Except.ok WriteResult.skippedEmpty) ∧
    (∀ (t : Table) (pOk cOk : Bool), t.rows ≠ [] →
       writeTableTablas (some t) pOk cOk =
         (if pOk then WriteResult.wroteParquet
          else if cOk then WriteResult.wroteCsvFallback
          else WriteResult.loggedError) ∧
       stagingSafeWrite (some t) pOk cOk =
         (if pOk then WriteResult.wroteParquet
          else if cOk then WriteResult.wroteCsvFallback
          else WriteResult.loggedError)) ∧
    (∀ t : Table, t.rows ≠ [] →
       writeTableDesnorm (some t) false = Except.error (PyErr.writeFailed "to_parquet")) := by
  refine ⟨?_, ?_, ?_⟩
  · rintro df pOk cOk (rfl | ⟨t, rfl, ht⟩)
    · exact ⟨rfl, rfl, rfl⟩
    · have he : t.rows.isEmpty = true := by simp [ht]
      refine ⟨?_, ?_, ?_⟩
      · simp [writeTableTablas, he]
      · simp [stagingSafeWrite, writeStagingModel, he]
      · simp [writeTableDesnorm, he]
  · intro t pOk cOk ht
    have he : t.rows.isEmpty = false := by
      rcases hr : t.rows with _ | _
      · exact absurd hr ht
      · simp
    cases pOk
    · cases cOk
      · exact ⟨by simp [writeTableTablas, he],
          by simp [stagingSafeWrite, writeStagingModel, he]⟩
      · exact ⟨by simp [writeTableTablas, he],
          by simp [stagingSafeWrite, writeStagingModel, he]⟩
    · exact ⟨by simp [writeTableTablas, he],
        by simp [stagingSafeWrite, writeStagingModel, he]⟩
  · intro t ht
    have he : t.rows.isEmpty = false := by
      rcases hr : t.rows with _ | _
      · exact absurd hr ht
      · simp
    simp [writeTableDesnorm, he]

/-- C3 witness: the amended contract evaluated at a concrete non-empty
table whose parquet write fails but whose csv write succeeds. -/
theorem c3_writer_contract_witness :
    writeTableTablas (some exOneCell) false true = WriteResult.wroteCsvFallback ∧
    stagingSafeWrite (some exOneCell) false true = WriteResult.wroteCsvFallback := by
  have h := c3_writer_contract.2.1 exOneCell false true (by decide)
  simpa using h

/-- C9 counterexample: a raw stem with an upper-case letter and no matching
keyword maps to its lowercased form, not to the stem itself. -/
theorem c9_counterexample :
    mapTarget "Zdata" = "zdata" ∧ "zdata" ≠ "Zdata" := by
  exact ⟨by decide, by decide⟩

/-- C9 (amended): the staging mapper assigns the canonical name of the
first rule (in the priority order of the rule table) whose keyword the
lowercased stem contains; when no keyword is contained, the lowercased
stem becomes the canonical name; in particular
`sales_order_item_detail` maps to `order_items`, not `orders`. -/
theorem c9_mapper_first_match :
    (∀ (stem : String) (pre : List (String × String)) (kv : String × String)
       (post : List (String × String)),
       mappingRules = pre ++ kv :: post →
       (∀ kv' ∈ pre, strContains (strLower stem) kv'.1 = false) →
       strContains (strLower stem) kv.1 = true →
       mapTarget stem = kv.2) ∧
    (∀ stem : String,
       (∀ kv ∈ mappingRules, strContains (strLower stem) kv.1 = false) →
       mapTarget stem = strLower stem) ∧
    mapTarget "sales_order_item_detail" = "order_items" := by
  refine ⟨?_, ?_, by decide⟩
  · intro stem pre kv post hrules hpre hkv
    unfold mapTarget
    have hfind : List.find? (fun x => strContains (strLower stem) x.1) (kv :: post)
        = some kv := List.find?_cons_of_pos _ hkv
    rw [hrules, find?_append_of_none _ _ _ hpre, hfind]
  · intro stem hall
    unfold mapTarget
    have hfind : List.find? (fun x => strContains (strLower stem) x.1) mappingRules
        = none := List.find?_eq_none.mpr (fun kv hkv => by simp [hall kv hkv])
    rw [hfind]

/-- C9 witness: the first-match rule applied concretely — `Customer_Data`
maps through the first rule to `customers`. -/
theorem c9_mapper_first_match_witness :
    mapTarget "Customer_Data" = "customers" := by
  apply c9_mapper_first_match.1 "Customer_Data" [] ("customer", "customers")
    [("product", "products"), ("store", "stores"),
     ("channel", "stores"), ("order_item", "order_items"),
     ("sales_order_item", "order_items"), ("sales_order", "orders"),
     ("order", "orders"), ("payment", "payment"), ("shipment", "shipment"),
     ("web_session", "web_session"), ("nps_response", "nps_response"),
     ("province", "province"), ("product_category", "product_category"),
     ("address", "address")]
  · rfl
  · intro kv' h
    cases h
  · decide

/-- C10: deduplication in the warehouse dimension builders keeps, for every
natural-key value, exactly the first staging row carrying it (in staging
row order, preserved as a sublist), so the surviving attribute values and
the surrogate key assigned to a key are those of its first occurrence. -/
theorem c10_dedup_keeps_first :
    (∀ (ks : List String) (t : Table) (r : Row), r ∈ (dropDupSubset t ks).rows →
       t.rows.find? (fun x => decide (rowKey ks x = rowKey ks r)) = some r) ∧
    (∀ (ks : List String) (t : Table) (x : Row), x ∈ t.rows →
       ∃ r ∈ (dropDupSubset t ks).rows, rowKey ks r = rowKey ks x) ∧
    (∀ (ks : List String) (t : Table),
       List.Sublist (dropDupSubset t ks).rows t.rows) := by
  refine ⟨?_, ?_, ?_⟩
  · intro ks t r h
    exact (dedupByAux_first_occurrence (rowKey ks) t.rows [] r h).2
  · intro ks t x h
    rcases dedupByAux_key_covered (rowKey ks) t.rows [] x h with hs | hex
    · exact absurd hs (List.not_mem_nil _)
    · exact hex
  · intro ks t
    exact dedupByAux_sublist (rowKey ks) t.rows []

/-- C10 witness: on a staging table where `customer_id` 1 appears twice,
the surviving row is the first occurrence (the one with name `A`). -/
theorem c10_dedup_keeps_first_witness :
    exCustomersDup.rows.find?
      (fun x => decide (rowKey ["customer_id"] x =
        rowKey ["customer_id"] [("customer_id", Val.int 1), ("name", Val.str "A")])) =
      some [("customer_id", Val.int 1), ("name", Val.str "A")] := by
  exact c10_dedup_keeps_first.1 ["customer_id"] exCustomersDup
    [("customer_id", Val.int 1), ("name", Val.str "A")] (by decide)

/-- C8: every dimension the warehouse builder produces carries a
surrogate-key column holding exactly the integers 1..N in post-deduplication
row order (N the post-deduplication row count), hence unique. -/
theorem c8_surrogate_keys_dense :
    (∀ st d, buildDimCustomers st = some d →
       getColumnT d "customer_sk" = skRange 1 d.rows.length ∧
       (getColumnT d "customer_sk").Nodup) ∧
    (∀ st d, buildDimProducts st = some d →
       getColumnT d "product_sk" = skRange 1 d.rows.length ∧
       (getColumnT d "product_sk").Nodup) ∧
    (∀ s c d, buildDimStores s c = some d →
       getColumnT d "store_sk" = skRange 1 d.rows.length ∧
       (getColumnT d "store_sk").Nodup) ∧
    (∀ st d, buildDimAddress st = some d →
       getColumnT d "address_sk" = skRange 1 d.rows.length ∧
       (getColumnT d "address_sk").Nodup) ∧
    (∀ st d, buildDimProductCategory st = some d →
       getColumnT d "product_category_sk" = skRange 1 d.rows.length ∧
       (getColumnT d "product_category_sk").Nodup) ∧
    (∀ o c d, buildDimDate o c = some d →
       getColumnT d "date_sk" = skRange 1 d.rows.length ∧
       (getColumnT d "date_sk").Nodup) := by
  refine ⟨?_, ?_, ?_, ?_, ?_, ?_⟩
  · intro st d h
    cases st with
    | none => cases h
    | some t =>
        unfold buildDimCustomers at h
        cases h
        exact sk_dense_insertSk _ _
  · intro st d h
    cases st with
    | none => cases h
    | some t =>
        unfold buildDimProducts at h
        cases h
        exact sk_dense_insertSk _ _
  · intro s c d h
    unfold buildDimStores at h
    rcases hm : (match s with | some t => some t | none => c) with _ | t
    · rw [hm] at h
      cases h
    · rw [hm] at h
      cases h
      exact sk_dense_insertSk _ _
  · intro st d h
    cases st with
    | none => cases h
    | some t =>
        unfold buildDimAddress at h
        cases h
        exact sk_dense_insertSk _ _
  · intro st d h
    cases st with
    | none => cases h
    | some t =>
        unfold buildDimProductCategory at h
        cases h
        exact sk_dense_insertSk _ _
  · intro o c d h
    unfold buildDimDate finalizeOpt at h
    rcases hd : dimDateRange o c with _ | l
    · rw [hd] at h
      cases h
    · rw [hd] at h
      rcases he : l.isEmpty with _ | _
      · simp only [he, Bool.false_eq_true, if_false] at h
        cases h
        exact sk_dense_finalizeDates l
      · simp only [he, if_true] at h
        cases h

theorem renameRowF_nil_suffix (sfx : String) (r : Row) :
    renameRowF (fun c => if ([] : List String).contains c = true then c ++ sfx else c) r
      = r := by
  induction r with
  | nil => rfl
  | cons p ps ih =>
      unfold renameRowF at ih ⊢
      simp only [List.map_cons]
      rw [ih]
      rfl

theorem emptyOpt_dimDateInit (o : Option Table) :
    emptyOpt (dimDateInit o) = (aDates o).isEmpty := by
  cases o with
  | none => rfl
  | some t =>
      by_cases hc : "order_date" ∈ t.cols
      · simp [dimDateInit, aDates, hc, emptyOpt]
      · simp [dimDateInit, aDates, hc, emptyOpt]

theorem dimDateInit_of_nonempty (o : Option Table) (ha : (aDates o).isEmpty = false) :
    dimDateInit o = some (aDates o) := by
  cases o with
  | none => simp [aDates] at ha
  | some t =>
      by_cases hc : "order_date" ∈ t.cols
      · simp [dimDateInit, aDates, hc]
      · simp [aDates, hc] at ha

theorem dimDateCust_of_b (o c : Option Table) (h2 : emptyOpt (dimDateInit o) = true)
    (hb : (bDates c).isEmpty = false) :
    dimDateCust o c = some (bDates c) := by
  cases c with
  | none => simp [bDates] at hb
  | some ct =>
      by_cases hc : "created_at" ∈ ct.cols
      · simp [dimDateCust, h2, bDates, hc]
      · simp [bDates, hc] at hb

theorem emptyOpt_dimDateCust (o c : Option Table) (ha : (aDates o).isEmpty = true)
    (hb : (bDates c).isEmpty = true) : emptyOpt (dimDateCust o c) = true := by
  have h2 : emptyOpt (dimDateInit o) = true := by rw [emptyOpt_dimDateInit]; exact ha
  cases c with
  | none =>
      unfold dimDateCust
      rw [h2]
      simpa using h2
  | some ct =>
      by_cases hc : "created_at" ∈ ct.cols
      · have hbb : (normDates (getColumnT ct "created_at")).isEmpty = true := by
          simpa [bDates, hc] using hb
        unfold dimDateCust
        rw [h2]
        simp [hc, emptyOpt, hbb]
      · unfold dimDateCust
        rw [h2]
        simpa [hc] using h2

theorem minDate_none_of_aEmpty (t : Table) (hc : "order_date" ∈ t.cols)
    (ha : (aDates (some t)).isEmpty = true) :
    minDate ((getColumnT t "order_date").map toDatetimeVal) = none := by
  apply (normDates_nil_iff _).mp
  have ha' := ha
  simp only [aDates] at ha'
  rw [if_pos (by simpa using hc)] at ha'
  rcases hn : normDates (getColumnT t "order_date") with _ | ⟨x, xs⟩
  · rfl
  · rw [hn] at ha'
    simp at ha'

theorem finalizeOpt_none (d : Option (List Val)) (h : emptyOpt d = true) :
    finalizeOpt d = none := by
  cases d with
  | none => rfl
  | some l =>
      simp only [emptyOpt] at h
      simp [finalizeOpt, h]

theorem dimDateRange_of_nonempty (o c : Option Table)
    (h : emptyOpt (dimDateCust o c) = false) :
    dimDateRange o c = dimDateCust o c := by
  unfold dimDateRange
  simp [h]

theorem emptyOpt_dimDateRange (o c : Option Table) (ha : (aDates o).isEmpty = true)
    (hb : (bDates c).isEmpty = true) : emptyOpt (dimDateRange o c) = true := by
  have hcust := emptyOpt_dimDateCust o c ha hb
  unfold dimDateRange
  rw [hcust]
  simp only [if_true]
  cases o with
  | none => exact hcust
  | some ot =>
      by_cases hcol : "order_date" ∈ ot.cols
      · have hmin := minDate_none_of_aEmpty ot hcol ha
        simp [hcol, hmin, hcust]
      · simp [hcol, hcust]

/-- C6: the warehouse date-dimension builder selects its source exactly in
the spec's precedence — orders' `order_date`, else customers' `created_at`,
else the generated min-to-max calendar, else no date dimension at all. -/
theorem c6_date_source_precedence :
    ∀ orders customers, buildDimDate orders customers = dimDateSpec orders customers := by
  intro o c
  by_cases ha : (aDates o).isEmpty = true
  · by_cases hb : (bDates c).isEmpty = true
    · have hrange := emptyOpt_dimDateRange o c ha hb
      have hcal : calDates o = [] := by
        cases o with
        | none => rfl
        | some ot =>
            by_cases hcol : "order_date" ∈ ot.cols
            · have hmin := minDate_none_of_aEmpty ot hcol ha
              simp [calDates, hcol, hmin]
            · simp [calDates, hcol]
      unfold buildDimDate
      rw [finalizeOpt_none _ hrange]
      simp [dimDateSpec, ha, hb, hcal]
    · have hbf : (bDates c).isEmpty = false := by
        rcases h : (bDates c).isEmpty with _ | _
        · rfl
        · exact absurd h hb
      have h2 : emptyOpt (dimDateInit o) = true := by
        rw [emptyOpt_dimDateInit]
        exact ha
      have hcust := dimDateCust_of_b o c h2 hbf
      have hne : emptyOpt (dimDateCust o c) = false := by
        rw [hcust]
        simpa [emptyOpt] using hbf
      have hrange : dimDateRange o c = some (bDates c) := by
        rw [dimDateRange_of_nonempty o c hne, hcust]
      unfold buildDimDate
      rw [hrange]
      simp [finalizeOpt, hbf, dimDateSpec, ha]
  · have haf : (aDates o).isEmpty = false := by
      rcases h : (aDates o).isEmpty with _ | _
      · rfl
      · exact absurd h ha
    have hinit := dimDateInit_of_nonempty o haf
    have hinitne : emptyOpt (dimDateInit o) = false := by
      rw [emptyOpt_dimDateInit]
      exact haf
    have hcust : dimDateCust o c = some (aDates o) := by
      unfold dimDateCust
      rw [hinitne]
      simp [hinit]
    have hcustne : emptyOpt (dimDateCust o c) = false := by
      rw [hcust]
      simpa [emptyOpt] using haf
    have hrange : dimDateRange o c = some (aDates o) := by
      rw [dimDateRange_of_nonempty o c hcustne, hcust]
    unfold buildDimDate
    rw [hrange]
    simp [finalizeOpt, haf, dimDateSpec]

/-- C1: both left-join primitives of the fact builders retain every left
row — the result has at least as many rows as the left table, and a fact
row whose key matches no dimension row appears in the result extended with
null cells for the dimension columns (so its surrogate key is null). -/
theorem c1_left_join_retains :
    (∀ (lt rt : Table) (key : String) (res : Table),
       mergeLeft lt rt key = Except.ok res →
       lt.rows.length ≤ res.rows.length ∧
       (overlapCols lt rt key = [] →
         ∀ l ∈ lt.rows, (∀ r ∈ rt.rows, getCellR r key ≠ getCellR l key) →
           l ++ rightNullCells rt key ∈ res.rows)) ∧
    (∀ (lt : Table) (kOf : Row → Val) (rt : Table) (rkey : String) (res : Table),
       mergeOnSeries lt kOf rt rkey = Except.ok res →
       lt.rows.length ≤ res.rows.length ∧
       (lt.cols.filter (fun c => rt.cols.contains c) = [] →
         ∀ l ∈ lt.rows, (∀ r ∈ rt.rows, getCellR r rkey ≠ kOf l) →
           l ++ [("key_0", kOf l)] ++ rt.cols.map (fun c => (c, Val.null)) ∈ res.rows)) := by
  constructor
  · intro lt rt key res h
    constructor
    · rw [mergeLeft_ok_rows lt rt key res h]
      exact length_joinRows_ge _ _ _ _ _ _
    · intro hov l hl hnomatch
      have hfilter : rt.rows.filter (fun r => decide (getCellR r key = getCellR l key)) = [] :=
        filter_eq_nil_of_false _ _ (fun r hr => by simp [hnomatch r hr])
      have hL : renameRowF
          (fun c => if (overlapCols lt rt key).contains c then c ++ "_x" else c) l = l := by
        rw [hov]
        exact renameRowF_nil_suffix _ _
      have hR : renameRowF
          (fun c => if (overlapCols lt rt key).contains c then c ++ "_y" else c)
          (rightNullCells rt key) = rightNullCells rt key := by
        rw [hov]
        exact renameRowF_nil_suffix _ _
      rw [mergeLeft_ok_rows lt rt key res h]
      have hmem := joinRows_mem_null (fun l0 => getCellR l0 key) (fun r => getCellR r key)
        rt.rows
        (fun l0 m =>
          renameRowF (fun c => if (overlapCols lt rt key).contains c then c ++ "_x" else c) l0 ++
          renameRowF (fun c => if (overlapCols lt rt key).contains c then c ++ "_y" else c)
            (m.filter (fun p => !(p.1 == key))))
        (fun l0 =>
          renameRowF (fun c => if (overlapCols lt rt key).contains c then c ++ "_x" else c) l0 ++
          renameRowF (fun c => if (overlapCols lt rt key).contains c then c ++ "_y" else c)
            (rightNullCells rt key))
        lt.rows l hl hfilter
      simp only [] at hmem
      rw [hL] at hmem
      nth_rewrite 2 [hR] at hmem
      exact hmem
  · intro lt kOf rt rkey res h
    constructor
    · rw [mergeOnSeries_ok_rows lt kOf rt rkey res h]
      exact length_joinRows_ge _ _ _ _ _ _
    · intro hov l hl hnomatch
      have hfilter : rt.rows.filter (fun r => decide (getCellR r rkey = kOf l)) = [] :=
        filter_eq_nil_of_false _ _ (fun r hr => by simp [hnomatch r hr])
      have hL : renameRowF
          (fun c => if (lt.cols.filter (fun c0 => rt.cols.contains c0)).contains c
                    then c ++ "_x" else c) l = l := by
        rw [hov]
        exact renameRowF_nil_suffix _ _
      have hR : renameRowF
          (fun c => if (lt.cols.filter (fun c0 => rt.cols.contains c0)).contains c
                    then c ++ "_y" else c)
          (rt.cols.map (fun c => (c, Val.null))) =
          rt.cols.map (fun c => (c, Val.null)) := by
        rw [hov]
        exact renameRowF_nil_suffix _ _
      rw [mergeOnSeries_ok_rows lt kOf rt rkey res h]
      have hmem := joinRows_mem_null kOf (fun r => getCellR r rkey)
        rt.rows
        (fun l0 m =>
          renameRowF (fun c => if (lt.cols.filter (fun c0 => rt.cols.contains c0)).contains c
            then c ++ "_x" else c) l0 ++
          [("key_0", kOf l0)] ++
          renameRowF (fun c => if (lt.cols.filter (fun c0 => rt.cols.contains c0)).contains c
            then c ++ "_y" else c) m)
        (fun l0 =>
          renameRowF (fun c => if (lt.cols.filter (fun c0 => rt.cols.contains c0)).contains c
            then c ++ "_x" else c) l0 ++
          [("key_0", kOf l0)] ++
          renameRowF (fun c => if (lt.cols.filter (fun c0 => rt.cols.contains c0)).contains c
            then c ++ "_y" else c) (rt.cols.map (fun c => (c, Val.null))))
        lt.rows l hl hfilter
      simp only [] at hmem
      rw [hL] at hmem
      nth_rewrite 2 [hR] at hmem
      exact hmem

/-- C1 witness: a fact row with `customer_id` 5, absent from the customers
dimension, survives the surrogate-key join with a null `customer_sk`. -/
theorem c1_left_join_retains_witness :
    [("customer_id", Val.int 5)] ++ rightNullCells exDimRight "customer_id" ∈
      exJoinRes.rows := by
  exact (c1_left_join_retains.1 exFactLeft exDimRight "customer_id" exJoinRes
    (by rfl)).2 (by decide) [("customer_id", Val.int 5)] (by decide) (by decide)

theorem length_dateJoinStep (f dd : Table) (tsCol skName : String) (g : Table)
    (h : dateJoinStep f dd tsCol skName = Except.ok g)
    (hnd : (getColumnT dd "date").Nodup) :
    g.rows.length ≤ f.rows.length := by
  unfold dateJoinStep at h
  split at h
  · cases h
  · rename_i sel hsel
    have hseleq := selectCols_ok dd ["date_sk", "date"] sel hsel
    have hselnd : (getColumnT sel "date").Nodup := by
      rw [hseleq, getColumnT_projectCols dd ["date_sk", "date"] "date" (by simp)]
      exact hnd
    split at h
    · cases h
    · rename_i fm hm
      cases h
      have h1 : fm.rows.length ≤ (mapColVals f tsCol toDatetimeVal).rows.length :=
        mergeOnSeries_length_le _ _ sel "date" fm hm hselnd
      rw [length_mapColVals] at h1
      calc (dropColsT (if fm.cols.contains "date_sk"
            then renameColT fm "date_sk" skName else fm) ["key_0", "date"]).rows.length
          = (if fm.cols.contains "date_sk"
            then renameColT fm "date_sk" skName else fm).rows.length :=
            length_dropColsT _ _
        _ ≤ f.rows.length := by
            split
            · rw [length_renameColT]; exact h1
            · exact h1

theorem length_dateJoinOrderLines (f dd : Table) (g : Table)
    (h : dateJoinOrderLines f dd = Except.ok g)
    (hnd : (getColumnT dd "date").Nodup) :
    g.rows.length ≤ f.rows.length := by
  unfold dateJoinOrderLines at h
  split at h
  · cases h
  · rename_i sel hsel
    have hseleq := selectCols_ok dd ["date_sk", "date", "date_id"] sel hsel
    have hselnd : (getColumnT sel "date").Nodup := by
      rw [hseleq, getColumnT_projectCols dd ["date_sk", "date", "date_id"] "date" (by simp)]
      exact hnd
    split at h
    · cases h
    · rename_i fm hm
      cases h
      have h1 : fm.rows.length ≤ (mapColVals f "order_date" toDatetimeVal).rows.length :=
        mergeOnSeries_length_le _ _ sel "date" fm hm hselnd
      rw [length_mapColVals] at h1
      calc (dropColsT (if fm.cols.contains "date_sk"
            then renameColT fm "date_sk" "order_date_sk" else fm)
            ["key_0", "date"]).rows.length
          = (if fm.cols.contains "date_sk"
            then renameColT fm "date_sk" "order_date_sk" else fm).rows.length :=
            length_dropColsT _ _
        _ ≤ f.rows.length := by
            split
            · rw [length_renameColT]; exact h1
            · exact h1

theorem length_dateStepGuard (p : Table) (dates : Option Table) (g : Bool)
    (tsCol skName : String) (f : Table)
    (h : dateStepGuard p dates g tsCol skName = Except.ok f)
    (hnd : ∀ dd, dates = some dd → (getColumnT dd "date").Nodup) :
    f.rows.length ≤ p.rows.length := by
  unfold dateStepGuard at h
  split at h
  · cases h
    exact Nat.le_refl _
  · rename_i dd
    split at h
    · exact length_dateJoinStep p dd tsCol skName f h (hnd dd rfl)
    · cases h
      exact Nat.le_refl _

theorem length_skJoinStep (f : Table) (dt : Option Table) (sk key : String) (g : Table)
    (h : skJoinStep f dt sk key = Except.ok g)
    (hnd : ∀ d, dt = some d → (getColumnT d key).Nodup) :
    g.rows.length ≤ f.rows.length := by
  unfold skJoinStep at h
  split at h
  · cases h
    exact Nat.le_refl _
  · rename_i d
    split at h
    · split at h
      · cases h
      · rename_i sel hsel
        have hseleq := selectCols_ok d [sk, key] sel hsel
        have hselnd : (getColumnT sel key).Nodup := by
          rw [hseleq, getColumnT_projectCols d [sk, key] key (by simp)]
          exact hnd d rfl
        exact mergeLeft_length_le f sel key g h hselnd
    · cases h
      exact Nat.le_refl _

theorem length_ordersJoinStep (f : Table) (orders : Option Table) (g : Table)
    (h : ordersJoinStep f orders = Except.ok g)
    (hnd : ∀ o, orders = some o → (getColumnT o "order_id").Nodup) :
    g.rows.length ≤ f.rows.length := by
  unfold ordersJoinStep at h
  split at h
  · cases h
    exact Nat.le_refl _
  · rename_i o
    split at h
    · split at h
      · cases h
      · rename_i sel hsel
        have hseleq := selectCols_ok o _ sel hsel
        have hselnd : (getColumnT sel "order_id").Nodup := by
          rw [hseleq, getColumnT_projectCols o _ "order_id" (by simp)]
          exact hnd o rfl
        exact mergeLeft_length_le f sel "order_id" g h hselnd
    · cases h
      exact Nat.le_refl _

theorem length_dateJoinOLStep (f : Table) (dates : Option Table) (g : Table)
    (h : dateJoinOLStep f dates = Except.ok g)
    (hnd : ∀ dd, dates = some dd → (getColumnT dd "date").Nodup) :
    g.rows.length ≤ f.rows.length := by
  unfold dateJoinOLStep at h
  split at h
  · cases h
    exact Nat.le_refl _
  · rename_i dd
    split at h
    · exact length_dateJoinOrderLines f dd g h (hnd dd rfl)
    · cases h
      exact Nat.le_refl _

/-- Uniqueness of the date dimension's `date` column, as assumed by the
fact builders' count bound. -/
def datesNodup (dims : Dims) : Prop :=
  ∀ dd, dims.dates = some dd → (getColumnT dd "date").Nodup

/-- C4 counterexample: with a staged orders table in which `order_id` 1
occurs twice (two different customers), the single order-items row produces
a two-row `fact_order_lines` — the post-deduplication fact row count
exceeds the staged order-items row count. -/
theorem c4_counterexample :
    (match buildFactOrderLines (some exItems) (some exOrdersDup) exDimsCust with
     | Except.ok (some t) => some t
     | _ => none) =
      some (Table.mk ["order_id", "customer_sk", "quantity", "line_total"]
        [[("order_id", Val.int 1), ("customer_sk", Val.int 1),
          ("quantity", Val.int 1), ("line_total", Val.null)],
         [("order_id", Val.int 1), ("customer_sk", Val.int 2),
          ("quantity", Val.int 1), ("line_total", Val.null)]]) ∧
    exItems.rows.length = 1 := by
  exact ⟨by decide, by decide⟩

/-- C4 (amended): the post-deduplication fact row count never exceeds the
staged source row count for payments, shipments, web sessions and survey
responses (their only enrichment join is against the unique-day date
dimension); for order lines the bound additionally requires the joined
natural keys to be unique — in particular unique `order_id` in staged
orders, without which the bound fails. -/
theorem c4_rowcount_bound :
    (∀ p dims t, datesNodup dims → buildFactPayments (some p) dims = Except.ok (some t) →
       t.rows.length ≤ p.rows.length) ∧
    (∀ s dims t, datesNodup dims → buildFactShipments (some s) dims = Except.ok (some t) →
       t.rows.length ≤ s.rows.length) ∧
    (∀ w dims t, datesNodup dims → buildFactWebSessions (some w) dims = Except.ok (some t) →
       t.rows.length ≤ w.rows.length) ∧
    (∀ n dims t, datesNodup dims → buildFactNps (some n) dims = Except.ok (some t) →
       t.rows.length ≤ n.rows.length) ∧
    (∀ it orders dims t,
       datesNodup dims →
       (∀ o, orders = some o → (getColumnT o "order_id").Nodup) →
       (∀ d, dims.customers = some d → (getColumnT d "customer_id").Nodup) →
       (∀ d, dims.products = some d → (getColumnT d "product_id").Nodup) →
       (∀ d, dims.stores = some d → (getColumnT d "store_id").Nodup) →
       buildFactOrderLines (some it) orders dims = Except.ok (some t) →
       t.rows.length ≤ it.rows.length) := by
  refine ⟨?_, ?_, ?_, ?_, ?_⟩
  · intro p dims t hnd h
    simp only [buildFactPayments] at h
    split at h
    · cases h
    · rename_i f hstep
      cases h
      calc (projectDedup f _).rows.length
          ≤ f.rows.length := length_projectDedup_le _ _
        _ ≤ p.rows.length := length_dateStepGuard p dims.dates _ _ _ f hstep hnd
  · intro s dims t hnd h
    simp only [buildFactShipments] at h
    split at h
    · cases h
    · rename_i f hstep
      cases h
      calc (projectDedup f _).rows.length
          ≤ f.rows.length := length_projectDedup_le _ _
        _ ≤ s.rows.length := length_dateStepGuard s dims.dates _ _ _ f hstep hnd
  · intro w dims t hnd h
    simp only [buildFactWebSessions] at h
    split at h
    · cases h
    · rename_i f hstep
      cases h
      calc (projectDedup f _).rows.length
          ≤ f.rows.length := length_projectDedup_le _ _
        _ ≤ w.rows.length := length_dateStepGuard w dims.dates _ _ _ f hstep hnd
  · intro n dims t hnd h
    simp only [buildFactNps] at h
    split at h
    · cases h
    · rename_i f hstep
      cases h
      calc (projectDedup f _).rows.length
          ≤ f.rows.length := length_projectDedup_le _ _
        _ ≤ n.rows.length := length_dateStepGuard n dims.dates _ _ _ f hstep hnd
  · intro it orders dims t hdates horders hcust hprod hstores h
    simp only [buildFactOrderLines] at h
    split at h
    · cases h
    · rename_i f1 h1
      split at h
      · cases h
      · rename_i f2 h2
        split at h
        · cases h
        · rename_i f3 h3
          split at h
          · cases h
          · rename_i f4 h4
            split at h
            · cases h
            · rename_i f5 h5
              cases h
              calc (projectDedup (computeMeasures f5) _).rows.length
                  ≤ (computeMeasures f5).rows.length := length_projectDedup_le _ _
                _ = f5.rows.length := length_computeMeasures _
                _ ≤ f4.rows.length := length_dateJoinOLStep f4 dims.dates f5 h5 hdates
                _ ≤ f3.rows.length := length_skJoinStep f3 dims.stores _ _ f4 h4 hstores
                _ ≤ f2.rows.length := length_skJoinStep f2 dims.products _ _ f3 h3 hprod
                _ ≤ (ensureQtyPrice f1).rows.length :=
                    length_skJoinStep (ensureQtyPrice f1) dims.customers _ _ f2 h2 hcust
                _ = f1.rows.length := length_ensureQtyPrice _
                _ ≤ it.rows.length := length_ordersJoinStep it orders f1 h1 horders

/-- C4 witness: the bound applied to a concrete payments table with an
exact-duplicate row — two staged rows, one fact row. -/
theorem c4_rowcount_bound_witness :
    (Table.mk ["payment_id", "order_id", "amount"]
      [[("payment_id", Val.int 1), ("order_id", Val.int 1),
        ("amount", Val.int 10)]]).rows.length ≤ exPayments.rows.length := by
  exact c4_rowcount_bound.1 exPayments dimsNone _
    (fun dd hdd => by cases hdd) (by rfl)

theorem getColumnT_setColFromCol_same (t : Table) (dst src : String) :
    getColumnT (setColFromCol t dst src) dst = getColumnT t src := by
  simp only [getColumnT, setColFromCol, List.map_map]
  apply List.map_congr_left
  intro r _
  simp only [Function.comp_apply]
  exact getCellR_setCellR_same r dst (getCellR r src)

theorem getColumnT_setColFromCol_ne (t : Table) (dst src c : String) (h : c ≠ dst) :
    getColumnT (setColFromCol t dst src) c = getColumnT t c := by
  simp only [getColumnT, setColFromCol, List.map_map]
  apply List.map_congr_left
  intro r _
  simp only [Function.comp_apply]
  exact getCellR_setCellR_ne r dst c (getCellR r src) h

theorem getColumnT_setColConst_same (t : Table) (c : String) (v : Val) :
    getColumnT (setColConst t c v) c = List.replicate t.rows.length v := by
  simp only [getColumnT, setColConst, List.map_map]
  rw [show ((fun r => getCellR r c) ∘ fun r => setCellR r c v) = fun _ => v from
    funext (fun r => getCellR_setCellR_same r c v)]
  exact List.map_const' _ _

theorem getColumnT_setColConst_other (t : Table) (c0 : String) (v : Val) (c : String)
    (h : c ≠ c0) : getColumnT (setColConst t c0 v) c = getColumnT t c := by
  simp only [getColumnT, setColConst, List.map_map]
  apply List.map_congr_left
  intro r _
  simp only [Function.comp_apply]
  exact getCellR_setCellR_ne r c0 c v h

theorem getColumnT_setColMul_same (t : Table) (dst a b : String) :
    getColumnT (setColMul t dst a b) dst =
      t.rows.map (fun r => mulVal (getCellR r a) (getCellR r b)) := by
  simp only [getColumnT, setColMul, List.map_map]
  apply List.map_congr_left
  intro r _
  simp only [Function.comp_apply]
  exact getCellR_setCellR_same r dst _

theorem getColumnT_setColMul_ne (t : Table) (dst a b c : String) (h : c ≠ dst) :
    getColumnT (setColMul t dst a b) c = getColumnT t c := by
  simp only [getColumnT, setColMul, List.map_map]
  apply List.map_congr_left
  intro r _
  simp only [Function.comp_apply]
  exact getCellR_setCellR_ne r dst c _ h

theorem contains_addCol_self (cols : List String) (dst : String) :
    (if cols.contains dst then cols else cols ++ [dst]).contains dst = true := by
  by_cases h : dst ∈ cols
  · simp [h]
  · simp [h]

theorem contains_addCol_other (cols : List String) (dst c : String) (h : c ≠ dst) :
    (if cols.contains dst then cols else cols ++ [dst]).contains c = cols.contains c := by
  by_cases hd : dst ∈ cols
  · simp [hd]
  · simp [hd, h]

theorem contains_setColFromCol_self (t : Table) (dst src : String) :
    (setColFromCol t dst src).cols.contains dst = true := by
  unfold setColFromCol
  exact contains_addCol_self t.cols dst

theorem contains_setColFromCol_other (t : Table) (dst src c : String) (h : c ≠ dst) :
    (setColFromCol t dst src).cols.contains c = t.cols.contains c := by
  unfold setColFromCol
  exact contains_addCol_other t.cols dst c h

theorem contains_setColConst_other (t : Table) (c0 : String) (v : Val) (c : String)
    (h : c ≠ c0) : (setColConst t c0 v).cols.contains c = t.cols.contains c := by
  unfold setColConst
  exact contains_addCol_other t.cols c0 c h

theorem contains_ensureQty_other (f : Table) (c : String) (h : c ≠ "quantity") :
    (ensureQty f).cols.contains c = f.cols.contains c := by
  unfold ensureQty
  split
  · exact contains_setColFromCol_other f "quantity" "qty" c h
  · rfl

theorem contains_ensurePrice_other (f : Table) (c : String) (h : c ≠ "unit_price") :
    (ensurePrice f).cols.contains c = f.cols.contains c := by
  unfold ensurePrice
  split
  · exact contains_setColFromCol_other f "unit_price" "price" c h
  · rfl

theorem getColumnT_ensureQty_ne (f : Table) (c : String) (h : c ≠ "quantity") :
    getColumnT (ensureQty f) c = getColumnT f c := by
  unfold ensureQty
  split
  · exact getColumnT_setColFromCol_ne f "quantity" "qty" c h
  · rfl

theorem getColumnT_ensurePrice_ne (f : Table) (c : String) (h : c ≠ "unit_price") :
    getColumnT (ensurePrice f) c = getColumnT f c := by
  unfold ensurePrice
  split
  · exact getColumnT_setColFromCol_ne f "unit_price" "price" c h
  · rfl

theorem getColumnT_defaultQty_ne (f : Table) (c : String) (h : c ≠ "quantity") :
    getColumnT (defaultQty f) c = getColumnT f c := by
  unfold defaultQty
  split
  · exact getColumnT_setColConst_other f "quantity" (Val.int 1) c h
  · rfl

theorem getColumnT_computeLineTotal_ne (f : Table) (c : String) (h : c ≠ "line_total") :
    getColumnT (computeLineTotal f) c = getColumnT f c := by
  unfold computeLineTotal
  split
  · exact getColumnT_setColMul_ne f "line_total" "quantity" "unit_price" c h
  · split
    · exact getColumnT_setColConst_other f "line_total" Val.null c h
    · rfl

/-- C7 counterexample: the warehouse fact builder does not recognize a
`units` column — the order-line row with `units` 5 gets `quantity` 1 in
`fact_order_lines`, not 5. -/
theorem c7_counterexample :
    (match buildFactOrderLines (some exItemsUnits) none dimsNone with
     | Except.ok (some t) => some t
     | _ => none) =
      some (Table.mk ["order_id", "quantity", "line_total"]
        [[("order_id", Val.int 1), ("quantity", Val.int 1),
          ("line_total", Val.null)]]) ∧
    getColumnT exItemsUnits "units" = [Val.int 5] := by
  exact ⟨by decide, by decide⟩

/-- C7 (amended): measure computation differs between the two fact builders.
In the staging-script builder the full recognition lists apply: quantity
comes from the first column whose lowercased name is `quantity`/`qty`/`units`
(constant 1 when none), unit price from the first `price`/`unit_price`/
`unitprice`/`precio` column, line total = quantity × unit price when a price
column exists, and unit price and line total are null otherwise. In the
warehouse builder only `quantity`/`qty` and `unit_price`/`price` are
recognized: `units`, `unitprice` and `precio` are ignored, quantity defaults
to 1 and line total to null in their absence. -/
theorem c7_measures :
    (∀ df qc, qtyColOf df = some qc →
       getColumnT (measuresDesnorm df) "quantity" = getColumnT df qc) ∧
    (∀ df : Table, qtyColOf df = none →
       getColumnT (measuresDesnorm df) "quantity" =
         List.replicate df.rows.length (Val.int 1)) ∧
    (∀ df : Table, priceColOf df = none →
       getColumnT (measuresDesnorm df) "unit_price" =
         List.replicate df.rows.length Val.null ∧
       getColumnT (measuresDesnorm df) "line_total" =
         List.replicate df.rows.length Val.null) ∧
    (∀ df qc pc, qtyColOf df = some qc → priceColOf df = some pc →
       getColumnT (measuresDesnorm df) "unit_price" = getColumnT df pc ∧
       getColumnT (measuresDesnorm df) "line_total" =
         df.rows.map (fun r => mulVal (getCellR r qc) (getCellR r pc))) ∧
    (∀ f : Table, f.cols.contains "quantity" = false → f.cols.contains "qty" = false →
       getColumnT (computeMeasures (ensureQtyPrice f)) "quantity" =
         List.replicate f.rows.length (Val.int 1)) ∧
    (∀ f : Table, f.cols.contains "quantity" = false → f.cols.contains "qty" = true →
       getColumnT (computeMeasures (ensureQtyPrice f)) "quantity" = getColumnT f "qty") ∧
    (∀ f : Table, f.cols.contains "unit_price" = false → f.cols.contains "price" = false →
       f.cols.contains "line_total" = false →
       getColumnT (computeMeasures (ensureQtyPrice f)) "line_total" =
         List.replicate f.rows.length Val.null) ∧
    (∀ f : Table, f.cols.contains "unit_price" = false → f.cols.contains "price" = true →
       getColumnT (computeMeasures (ensureQtyPrice f)) "unit_price" =
         getColumnT f "price") := by
  refine ⟨?_, ?_, ?_, ?_, ?_, ?_, ?_, ?_⟩
  · intro df qc hq
    cases hp : priceColOf df with
    | some pc =>
        simp only [measuresDesnorm, hq, hp]
        rw [getColumnT_setColMul_ne _ _ _ _ _ (by decide)]
        rw [getColumnT_setColFromCol_ne _ _ _ _ (by decide)]
        exact getColumnT_setColFromCol_same df "quantity" qc
    | none =>
        simp only [measuresDesnorm, hq, hp]
        rw [getColumnT_setColConst_other _ _ _ _ (by decide)]
        rw [getColumnT_setColConst_other _ _ _ _ (by decide)]
        exact getColumnT_setColFromCol_same df "quantity" qc
  · intro df hq
    cases hp : priceColOf df with
    | some pc =>
        simp only [measuresDesnorm, hq, hp]
        rw [getColumnT_setColMul_ne _ _ _ _ _ (by decide)]
        rw [getColumnT_setColFromCol_ne _ _ _ _ (by decide)]
        rw [getColumnT_setColConst_same]
    | none =>
        simp only [measuresDesnorm, hq, hp]
        rw [getColumnT_setColConst_other _ _ _ _ (by decide)]
        rw [getColumnT_setColConst_other _ _ _ _ (by decide)]
        rw [getColumnT_setColConst_same]
  · intro df hp
    cases hq : qtyColOf df with
    | some qc =>
        simp only [measuresDesnorm, hq, hp]
        constructor
        · rw [getColumnT_setColConst_other _ _ _ _ (by decide)]
          rw [getColumnT_setColConst_same, length_setColFromCol]
        · rw [getColumnT_setColConst_same, length_setColConst, length_setColFromCol]
    | none =>
        simp only [measuresDesnorm, hq, hp]
        constructor
        · rw [getColumnT_setColConst_other _ _ _ _ (by decide)]
          rw [getColumnT_setColConst_same, length_setColConst]
        · rw [getColumnT_setColConst_same, length_setColConst, length_setColConst]
  · intro df qc pc hq hp
    have hpc : pc ≠ "quantity" := by
      intro he
      have hfind := List.find?_some hp
      rw [he] at hfind
      exact absurd hfind (by decide)
    simp only [measuresDesnorm, hq, hp]
    constructor
    · rw [getColumnT_setColMul_ne _ _ _ _ _ (by decide)]
      rw [getColumnT_setColFromCol_same]
      exact getColumnT_setColFromCol_ne df "quantity" qc pc hpc
    · rw [getColumnT_setColMul_same]
      simp only [setColFromCol, List.map_map]
      apply List.map_congr_left
      intro r _
      simp only [Function.comp_apply]
      have hne1 : ∀ (r0 : Row) (v : Val),
          getCellR (setCellR r0 "unit_price" v) "quantity" = getCellR r0 "quantity" :=
        fun r0 v => getCellR_setCellR_ne r0 "unit_price" "quantity" v (by decide)
      have hne2 : ∀ (r0 : Row) (v : Val),
          getCellR (setCellR r0 "quantity" v) pc = getCellR r0 pc :=
        fun r0 v => getCellR_setCellR_ne r0 "quantity" pc v hpc
      rw [hne1, getCellR_setCellR_same, getCellR_setCellR_same, hne2]
  · intro f h1 h2
    have he : ensureQty f = f := by
      unfold ensureQty
      rw [h1, h2]
      rfl
    rw [show computeMeasures (ensureQtyPrice f)
        = computeLineTotal (defaultQty (ensurePrice (ensureQty f))) from rfl, he]
    rw [getColumnT_computeLineTotal_ne _ _ (by decide)]
    have hcq : (ensurePrice f).cols.contains "quantity" = false := by
      rw [contains_ensurePrice_other f _ (by decide)]
      exact h1
    unfold defaultQty
    rw [hcq]
    show getColumnT (setColConst (ensurePrice f) "quantity" (Val.int 1)) "quantity" = _
    rw [getColumnT_setColConst_same, length_ensurePrice]
  · intro f h1 h2
    have he : ensureQty f = setColFromCol f "quantity" "qty" := by
      unfold ensureQty
      rw [h1, h2]
      rfl
    rw [show computeMeasures (ensureQtyPrice f)
        = computeLineTotal (defaultQty (ensurePrice (ensureQty f))) from rfl, he]
    rw [getColumnT_computeLineTotal_ne _ _ (by decide)]
    have hcq : (ensurePrice (setColFromCol f "quantity" "qty")).cols.contains "quantity"
        = true := by
      rw [contains_ensurePrice_other _ _ (by decide)]
      exact contains_setColFromCol_self f "quantity" "qty"
    unfold defaultQty
    rw [hcq]
    show getColumnT (ensurePrice (setColFromCol f "quantity" "qty")) "quantity"
        = getColumnT f "qty"
    rw [getColumnT_ensurePrice_ne _ _ (by decide)]
    exact getColumnT_setColFromCol_same f "quantity" "qty"
  · intro f hup hpr hlt
    have hup' : (ensureQty f).cols.contains "unit_price" = false := by
      rw [contains_ensureQty_other f _ (by decide)]
      exact hup
    have hpr' : (ensureQty f).cols.contains "price" = false := by
      rw [contains_ensureQty_other f _ (by decide)]
      exact hpr
    have hep : ensurePrice (ensureQty f) = ensureQty f := by
      unfold ensurePrice
      rw [hup', hpr']
      rfl
    rw [show computeMeasures (ensureQtyPrice f)
        = computeLineTotal (defaultQty (ensurePrice (ensureQty f))) from rfl, hep]
    have hug : (defaultQty (ensureQty f)).cols.contains "unit_price" = false := by
      unfold defaultQty
      split
      · rw [contains_setColConst_other _ _ _ _ (by decide)]
        exact hup'
      · exact hup'
    have hlg : (defaultQty (ensureQty f)).cols.contains "line_total" = false := by
      have hlt' : (ensureQty f).cols.contains "line_total" = false := by
        rw [contains_ensureQty_other f _ (by decide)]
        exact hlt
      unfold defaultQty
      split
      · rw [contains_setColConst_other _ _ _ _ (by decide)]
        exact hlt'
      · exact hlt'
    unfold computeLineTotal
    rw [hug, hlg]
    show getColumnT (setColConst (defaultQty (ensureQty f)) "line_total" Val.null)
        "line_total" = _
    rw [getColumnT_setColConst_same, length_defaultQty, length_ensureQty]
  · intro f hup hpr
    rw [show computeMeasures (ensureQtyPrice f)
        = computeLineTotal (defaultQty (ensurePrice (ensureQty f))) from rfl]
    rw [getColumnT_computeLineTotal_ne _ _ (by decide)]
    rw [getColumnT_defaultQty_ne _ _ (by decide)]
    have hup' : (ensureQty f).cols.contains "unit_price" = false := by
      rw [contains_ensureQty_other f _ (by decide)]
      exact hup
    have hpr' : (ensureQty f).cols.contains "price" = true := by
      rw [contains_ensureQty_other f _ (by decide)]
      exact hpr
    have hep : ensurePrice (ensureQty f)
        = setColFromCol (ensureQty f) "unit_price" "price" := by
      unfold ensurePrice
      rw [hup', hpr']
      rfl
    rw [hep, getColumnT_setColFromCol_same]
    exact getColumnT_ensureQty_ne f "price" (by decide)

/-- C7 witness: on the `units` table, the staging-script measures take
quantity 5 from `units` while the warehouse measures default it to 1. -/
theorem c7_measures_witness :
    getColumnT (measuresDesnorm exItemsUnits) "quantity" =
      getColumnT exItemsUnits "units" ∧
    getColumnT (computeMeasures (ensureQtyPrice exItemsUnits)) "quantity" =
      List.replicate exItemsUnits.rows.length (Val.int 1) := by
  exact ⟨c7_measures.1 exItemsUnits "units" (by decide),
    c7_measures.2.2.2.2.1 exItemsUnits (by decide) (by decide)⟩

/-- C8 witness: on a two-customer staging table the built dimension's
surrogate keys are exactly `[1, 2]`. -/
theorem c8_surrogate_keys_dense_witness :
    getColumnT
      (Table.mk ["customer_sk", "customer_id"]
        [[("customer_sk", Val.int 1), ("customer_id", Val.int 1)],
         [("customer_sk", Val.int 2), ("customer_id", Val.int 2)]]) "customer_sk" =
      skRange 1 2 ∧
    (getColumnT
      (Table.mk ["customer_sk", "customer_id"]
        [[("customer_sk", Val.int 1), ("customer_id", Val.int 1)],
         [("customer_sk", Val.int 2), ("customer_id", Val.int 2)]]) "customer_sk").Nodup := by
  exact c8_surrogate_keys_dense.1 (some exCustStaging) _ (by decide)

end Warehouse
